import Mathlib

/-!
Verification of the turn-taking scheduler and decision logic of the
multi-agent deployment repository.

The embedding translates, from `src/app/core/chat_manager.py`:
  `_is_in_fixed_order_stage`, `_is_user_message`, `_detect_user_intervention`,
  `_parse_routing_decision`, `_route_next_speaker`,
  `_single_round_collaborate`, `_multi_round_collaborate`, `collaborate`;
and, from `src/app/core/agent_router.py`:
  `_analyze_keywords`, `_analyze_subject`, `_analyze_context`,
  `_make_final_decision`, `_apply_default_rules`, `_generate_reason`,
  `route_agent`.

Conventions of the embedding:
* Python `str` is Lean `String`; `str.strip` / `str.lower` / `str.upper` are
  modelled by explicit character-list operations (`pyStrip`, `pyLower`,
  `pyUpper`).  Python's case mappings are full Unicode while `Char.toLower`
  is ASCII-only; all strings the claims compare case-insensitively are ASCII
  or Chinese (caseless), so the two coincide on every relevant input.
* Python floats of `agent_router.py` are modelled by `ℚ`; every arithmetic
  fact the claims use (weights 0.4/0.35/0.25, thresholds 0.3/0.1, counts
  divided by counts) is exact in both systems.
* External capabilities (the three participant agents and the router agent)
  are oracles: a responder yields the reply content or fails
  (`Except Unit String`); the reply's `name` is the agent's fixed `name`
  attribute set in `src/app/core/agent_manager.py` (`专家智能体` /
  `助教智能体` / `同伴智能体`).  `json.loads(...).get("agent")` is an oracle
  `JsonAgentFn` as well: it can fail (a raised exception), or produce the
  `agent` field (absent / a string / some non-string value).
* The multi-round loop is translated as a fuel recursion (`mrLoop`) whose
  fuel is `max_rounds.toNat`, mirroring `for round_num in range(max_rounds)`
  with `break` rendered as returning the events produced so far.  The loop
  emits a trace of events; the returned message list is the projection
  `responsesOf` of that trace, and the other events are ghost observations
  (router consultations, dynamic-stage entry, responder failures) used to
  state the temporal claims.
-/

/-! ## Python string primitives -/

/-- Character-level test used by `str.strip()`: ASCII whitespace. -/
def pyIsSpace (c : Char) : Bool := c = ' ' || c = '\t' || c = '\n' || c = '\r'

/-- Model of Python `str.strip()` (no arguments): drop leading and trailing
whitespace. -/
def pyStrip (s : String) : String :=
  String.mk (((s.toList.dropWhile pyIsSpace).reverse.dropWhile pyIsSpace).reverse)

/-- Model of Python `str.lower()` (ASCII case mapping; the claims only
compare ASCII or caseless strings). -/
def pyLower (s : String) : String := String.mk (s.toList.map Char.toLower)

/-- Model of Python `str.upper()` (ASCII case mapping). -/
def pyUpper (s : String) : String := String.mk (s.toList.map Char.toUpper)

/-- Is `pat` a prefix of `l`? -/
def listIsPre (pat l : List Char) : Bool :=
  match pat, l with
  | [], _ => true
  | _ :: _, [] => false
  | a :: as, b :: bs => a = b && listIsPre as bs

/-- Does `l` contain `pat` as a contiguous sublist?  (Python `pat in s`;
in particular the empty pattern is contained in everything, as in Python.) -/
def listHasSub (pat : List Char) : List Char → Bool
  | [] => listIsPre pat []
  | c :: cs => listIsPre pat (c :: cs) || listHasSub pat cs

/-- Model of Python substring containment `pat in s`. -/
def hasSubstr (pat s : String) : Bool := listHasSub pat.toList s.toList

/-- The double-quote and single-quote characters stripped by
`.strip('"\'')` in `_parse_routing_decision`. -/
def quoteChars : List Char := ['"', Char.ofNat 39]

/-- Model of Python `str.strip('"\'')`: drop leading and trailing quote
characters. -/
def pyStripQuotes (s : String) : String :=
  String.mk (((s.toList.dropWhile (· ∈ quoteChars)).reverse.dropWhile
    (· ∈ quoteChars)).reverse)

/-- The `{` character (written via its code point). -/
def lbrace : Char := Char.ofNat 123

/-- The `}` character (written via its code point). -/
def rbrace : Char := Char.ofNat 125

/-- Python `stripped.startswith("{")`. -/
def startsWithLBrace (s : String) : Bool := s.toList.head? = some lbrace

/-- Python `stripped.endswith("}")`. -/
def endsWithRBrace (s : String) : Bool := s.toList.getLast? = some rbrace

/-! ## Data model -/

/-- A conversation message: `{role: string, content: string}`. -/
structure Msg where
  role : String
  content : String
deriving DecidableEq, Repr

/-- The closed set of participant keys used by `agent_mapping` in
`collaborate`. -/
inductive AgentKey where
  | expert
  | assistant
  | peer
deriving DecidableEq, Repr, Fintype

/-- The fixed `name` attribute of each participant agent, set at
construction in `src/app/core/agent_manager.py`; the reply message's
`role` field is this name (`response_msg.name`). -/
def agentName : AgentKey → String
  | .expert => "专家智能体"
  | .assistant => "助教智能体"
  | .peer => "同伴智能体"

/-- The `AutoConfig` wire shape: `{enabled, maxRounds, continueOnUserInput,
stopKeywords}` (field names follow the Python attribute names read by
`_multi_round_collaborate`). -/
structure AutoConfig where
  enabled : Bool
  max_rounds : Int
  continue_on_user_input : Bool
  stop_keywords : List String
deriving DecidableEq, Repr

/-- A participant's `respond` capability, at the interface: given the
history it yields the reply content, or fails (timeout / transport error,
i.e. a raised exception). -/
abbrev ResponderFn := List Msg → Except Unit String

/-- The router's `decide` capability: free text, or a raised exception. -/
abbrev RouterFn := List Msg → Except Unit String

/-- Result of the external call `json.loads(stripped).get("agent")` in
`_parse_routing_decision`, for a brace-delimited `stripped`. -/
inductive JVal where
  | str (s : String)
  | other
deriving DecidableEq, Repr

/-- Oracle for `json.loads(stripped).get("agent")`: `.error` models a
raised decode exception; `.ok none` a decoded object without an `agent`
field (or with `agent` equal to `null`); `.ok (some v)` the field's value. -/
abbrev JsonAgentFn := String → Except Unit (Option JVal)

/-! ## Fixed-order stage detection (`_is_in_fixed_order_stage`) -/

/-- Alias sets of `_is_in_fixed_order_stage` (Chinese role names plus the
common English agent namings). -/
def aliasList : AgentKey → List String
  | .expert => ["专家智能体", "expert", "expertagent", "expert_agent"]
  | .assistant => ["助教智能体", "assistant", "assistantagent", "assistant_agent"]
  | .peer => ["同伴智能体", "peer", "companion", "companionagent", "companion_agent"]

/-- The inner `normalize` of `_is_in_fixed_order_stage`: strip, lowercase,
remove spaces and underscores (`.replace(" ", "").replace("_", "")` with a
single-character pattern and empty replacement removes those characters). -/
def normalizeRole (s : String) : String :=
  String.mk ((pyLower (pyStrip s)).toList.filter (fun c => !(c = ' ' || c = '_')))

/-- Does a raw role label match participant `k` (normalized comparison
against the normalized alias set)? -/
def matchesAgent (k : AgentKey) (role : String) : Bool :=
  (aliasList k).any (fun a => normalizeRole role = normalizeRole a)

/-- Has participant `k` already spoken in `history` (the `spoken_flags`
computation of `_is_in_fixed_order_stage`)? -/
def hasSpoken (k : AgentKey) (history : List Msg) : Bool :=
  history.any (fun m => matchesAgent k m.role)

/-- Translation of `_is_in_fixed_order_stage`: `(True, key)` while some fixed participant
has not spoken (Expert, then Assistant, then Peer), else `(False, None)`. -/
def isInFixedOrderStage (history : List Msg) : Bool × Option AgentKey :=
  if !hasSpoken .expert history then (true, some .expert)
  else if !hasSpoken .assistant history then (true, some .assistant)
  else if !hasSpoken .peer history then (true, some .peer)
  else (false, none)

/-! ## User-intervention detection -/

/-- Translation of `_is_user_message`: the `role` field, stripped and lowercased, equals
`"user"`. -/
def isUserMessage (m : Msg) : Bool := pyLower (pyStrip m.role) = "user"

/-- Translation of `_detect_user_intervention`: the history is non-empty and its last
message is a user message. -/
def detectUserIntervention (history : List Msg) : Bool :=
  match history.getLast? with
  | none => false
  | some m => isUserMessage m

/-! ## Decision parsing (`_parse_routing_decision`, `_route_next_speaker`) -/

/-- Key normalization of `_parse_routing_decision`:
`next_agent_key.strip().strip('"\'').lower()`. -/
def normalizeKey (s : String) : String := pyLower (pyStripQuotes (pyStrip s))

/-- The `valid_keys` table with its `.get(key, expert)` default. -/
def keyTable (key : String) : AgentKey :=
  if key = "expert" then .expert
  else if key = "assistant" then .assistant
  else if key = "peer" then .peer
  else .expert

/-- Translation of `_parse_routing_decision` on a string decision: JSON is attempted only
for brace-delimited trimmed text; a decode exception falls back to the
whole stripped text; an absent or non-string `agent` field yields the
literal key `"expert"`; the final key is normalized and mapped through
`valid_keys` with default `expert`; an empty key is reported as
`"expert"` (`next_agent_key or "expert"`). -/
def parseRoutingDecision (jsonAgent : JsonAgentFn) (decisionContent : String) :
    String × AgentKey :=
  let stripped := pyStrip decisionContent
  let nextKey0 : Option JVal :=
    if startsWithLBrace stripped && endsWithRBrace stripped then
      match jsonAgent stripped with
      | .ok v => v
      | .error _ => some (.str (pyStrip decisionContent))
    else some (.str stripped)
  let key : String :=
    match nextKey0 with
    | some (.str s) => normalizeKey s
    | _ => "expert"
  ((if key = "" then "expert" else key), keyTable key)

/-- The `"STOP" in str(decision_content).upper()` test of
`_route_next_speaker`. -/
def containsStop (text : String) : Bool := hasSubstr "STOP" (pyUpper text)

/-- Translation of `_route_next_speaker`: consult the router; on a raised exception return
the default `("expert", expert)`; on success, a text containing `STOP`
(case-insensitively) yields `("STOP", None)`, otherwise the parsed
decision.  The leading `Bool` is a ghost flag recording whether the router
raised. -/
def routeNextSpeaker (jsonAgent : JsonAgentFn) (router : RouterFn)
    (history : List Msg) : Bool × String × Option AgentKey :=
  match router history with
  | .error _ => (true, "expert", some .expert)
  | .ok text =>
      if containsStop text then (false, "STOP", none)
      else
        let p := parseRoutingDecision jsonAgent text
        (false, p.1, some p.2)

/-- Resolved routing decision of the multi-round routing path (the success
branch of `_route_next_speaker`): either `STOP` or a participant. -/
inductive RouteRes where
  | stop
  | pick (k : AgentKey)
deriving DecidableEq, Repr

/-- The source-side resolution of a raw router text in the multi-round
path: the `STOP` test of `_route_next_speaker`, then
`_parse_routing_decision`. -/
def resolveDecision (jsonAgent : JsonAgentFn) (text : String) : RouteRes :=
  if containsStop text then .stop
  else .pick (parseRoutingDecision jsonAgent text).2

/-- Modelled from the spec (section 4.2 / claim C3 wording), for comparison
with `resolveDecision`: if the text contains `"STOP"` case-insensitively,
`STOP`, with priority over structured content; otherwise the candidate key
is the JSON `agent` field when the trimmed text is brace-delimited and
decodes, else the whole trimmed text; the candidate is normalized (trim,
quote-stripping, lowercase) and mapped through the fixed table, every value
outside it resolving to `expert`. -/
def specResolveDecision (jsonAgent : JsonAgentFn) (text : String) : RouteRes :=
  if containsStop text then .stop
  else
    let trimmed := pyStrip text
    let candidate : Option String :=
      if startsWithLBrace trimmed && endsWithRBrace trimmed then
        match jsonAgent trimmed with
        | .ok (some (.str s)) => some s
        | .ok _ => none
        | .error _ => some trimmed
      else some trimmed
    match candidate with
    | some c => .pick (keyTable (normalizeKey c))
    | none => .pick .expert

/-! ## Multi-round collaboration (`_multi_round_collaborate`) -/

/-- Trace events of one multi-round call.  `reply`/`replyFail` record the
outcome of `_get_agent_response` for the selected participant (`reply`
carries the appended message); `route` records a consultation of the router
(`raised` true when the router itself raised and `_route_next_speaker`
returned the default); `dynEntry` records the single first entry into the
dynamic stage together with the working history at that moment, the
computed `dynamic_max_rounds` budget and `rounds_done`. -/
inductive Ev where
  | dynEntry (histAt : List Msg) (budget : Int) (roundsDone : Nat)
  | route (raised : Bool) (key : String) (sel : Option AgentKey)
  | reply (k : AgentKey) (m : Msg)
  | replyFail (k : AgentKey)
deriving DecidableEq, Repr

/-- The produced message list: projection of the trace onto `reply`
events. -/
def responsesOf (tr : List Ev) : List Msg :=
  tr.filterMap (fun e => match e with | .reply _ m => some m | _ => none)

/-- The selected speaker of each produced message, in order. -/
def speakersOf (tr : List Ev) : List AgentKey :=
  tr.filterMap (fun e => match e with | .reply k _ => some k | _ => none)

/-- The stop-keyword test after a produced message: the content, stripped
and lowercased, contains some configured keyword (stripped and lowercased)
that is non-empty (`any(k and k in content_norm ...)`). -/
def stopHit (cfg : AutoConfig) (content : String) : Bool :=
  let contentNorm := pyLower (pyStrip content)
  (cfg.stop_keywords.map (fun k => pyLower (pyStrip k))).any
    (fun k => k ≠ "" && hasSubstr k contentNorm)

/-- Outcome of the speaker-selection part of one loop iteration
(everything before the `try` block): either the loop breaks, or a
participant is selected with the updated dynamic-stage counters.  `evs`
are the events emitted during selection. -/
inductive SelOutcome where
  | brk (evs : List Ev)
  | go (evs : List Ev) (k : AgentKey) (enteredDynamic : Bool)
      (dynamicRoundsDone : Nat) (dynamicMaxRounds : Int)
deriving Repr

/-- The budget assigned on the first entry into the dynamic stage:
`1` when the user just spoke and `continue_on_user_input` is off, else the
remaining rounds `max_rounds - rounds_done`. -/
def dynMaxOnEntry (cfg : AutoConfig) (userJustSpoke : Bool)
    (roundsDone : Nat) : Int :=
  if userJustSpoke && !cfg.continue_on_user_input then 1
  else cfg.max_rounds - (roundsDone : Int)

/-- Speaker selection of one iteration of `_multi_round_collaborate`:
the fixed-order stage ignores `continue_on_user_input`; on the first entry
into the dynamic stage the budget `dynamic_max_rounds` is set from
`user_just_spoke` (computed from the *input* history before the loop) and
the remaining rounds; an exhausted budget or a `STOP` decision breaks.
The unreachable `(key ≠ "STOP", None)` arm breaks, matching Python where
calling `None` would raise inside the `try` and break the loop. -/
def selectSpeaker (cfg : AutoConfig) (jsonAgent : JsonAgentFn)
    (router : RouterFn) (userJustSpoke : Bool) (hist : List Msg)
    (roundsDone : Nat) (enteredDynamic : Bool) (dynamicRoundsDone : Nat)
    (dynamicMaxRounds : Int) : SelOutcome :=
  match (isInFixedOrderStage hist).2 with
  | some k => .go [] k enteredDynamic dynamicRoundsDone dynamicMaxRounds
  | none =>
      let dynMax' : Int :=
        if !enteredDynamic then dynMaxOnEntry cfg userJustSpoke roundsDone
        else dynamicMaxRounds
      let evs : List Ev :=
        if !enteredDynamic then [.dynEntry hist dynMax' roundsDone] else []
      if (dynamicRoundsDone : Int) ≥ dynMax' then .brk evs
      else
        match routeNextSpeaker jsonAgent router hist with
        | (raised, key, osel) =>
            let evs' := evs ++ [.route raised key osel]
            if key = "STOP" then .brk evs'
            else
              match osel with
              | some k => .go evs' k true (dynamicRoundsDone + 1) dynMax'
              | none => .brk evs'

/-- The round loop of `_multi_round_collaborate`, as a fuel recursion over
`range(max_rounds)`.  Each iteration selects a speaker, invokes its
responder on the working history, and on success appends the reply
(`{"role": response_msg.name, "content": ...}`) to the working history,
breaking on a stop-keyword hit; a responder exception breaks the loop.
`rounds_done` is incremented at the end of a successful round. -/
def mrLoop (cfg : AutoConfig) (jsonAgent : JsonAgentFn) (router : RouterFn)
    (respond : AgentKey → ResponderFn) (userJustSpoke : Bool) :
    Nat → List Msg → Nat → Bool → Nat → Int → List Ev
  | 0, _, _, _, _, _ => []
  | fuel + 1, hist, roundsDone, enteredDynamic, dynamicRoundsDone,
      dynamicMaxRounds =>
    match selectSpeaker cfg jsonAgent router userJustSpoke hist roundsDone
        enteredDynamic dynamicRoundsDone dynamicMaxRounds with
    | .brk evs => evs
    | .go evs k enteredDynamic' dynamicRoundsDone' dynamicMaxRounds' =>
        evs ++
          match respond k hist with
          | .error _ => [.replyFail k]
          | .ok c =>
              let m : Msg := ⟨agentName k, c⟩
              .reply k m ::
                (if stopHit cfg c then []
                 else mrLoop cfg jsonAgent router respond userJustSpoke fuel
                   (hist ++ [m]) (roundsDone + 1) enteredDynamic'
                   dynamicRoundsDone' dynamicMaxRounds')

/-- Translation of `_multi_round_collaborate`, instrumented: the full event trace of one
call.  `user_just_spoke` is computed from the input history before the
loop; `dynamic_max_rounds` starts at `max_rounds`. -/
def multiRoundCollaborate (jsonAgent : JsonAgentFn) (router : RouterFn)
    (respond : AgentKey → ResponderFn) (history : List Msg)
    (cfg : AutoConfig) : List Ev :=
  mrLoop cfg jsonAgent router respond (detectUserIntervention history)
    cfg.max_rounds.toNat history 0 false 0 cfg.max_rounds

/-- The message list returned by `_multi_round_collaborate`. -/
def multiRoundResponses (jsonAgent : JsonAgentFn) (router : RouterFn)
    (respond : AgentKey → ResponderFn) (history : List Msg)
    (cfg : AutoConfig) : List Msg :=
  responsesOf (multiRoundCollaborate jsonAgent router respond history cfg)

/-! ## Single-round collaboration (`_single_round_collaborate`) -/

/-- Translation of `_single_round_collaborate`: one router decision passed directly to
`_parse_routing_decision` (no `STOP` test), then one response from the
selected participant; router or responder exceptions propagate. -/
def singleRoundCollaborate (jsonAgent : JsonAgentFn) (router : RouterFn)
    (respond : AgentKey → ResponderFn) (history : List Msg) :
    Except Unit (List Msg) := do
  let nextChoice ← router history
  let p := parseRoutingDecision jsonAgent nextChoice
  let c ← respond p.2 history
  return [⟨agentName p.2, c⟩]

/-! ## Registry and entry point (`collaborate`) -/

/-- The registry lookups performed at the top of `collaborate`:
`agent_manager.get_agent` returns `None` for a missing entry.  A present
participant is its respond oracle; the present router is its decide
oracle. -/
structure Registry where
  expert : Option ResponderFn
  assistant : Option ResponderFn
  peer : Option ResponderFn
  router : Option RouterFn

/-- Errors surfaced by the entry point: a missing registry entry
(`ValueError` in `collaborate`) or an invalid `AutoConfig`
(`ValidationError`, see `validMaxRounds`). -/
inductive CollabError where
  | configurationError
  | validationError
deriving DecidableEq, Repr

/-- Dispatch from participant key to the registered responder, given all
three participants are present (the `agent_mapping` dict). -/
def respondOf (e a p : ResponderFn) : AgentKey → ResponderFn
  | .expert => e
  | .assistant => a
  | .peer => p

/-- Modelled from the spec: the `AutoConfig` pydantic model is imported by
`chat_manager.py` from `app/models/schemas.py` but is absent from the
sources; per the spec's data model (`maxRounds: int ≥ 1`) and error
taxonomy, a config with `maxRounds < 1` is a `ValidationError` surfaced
before any round executes. -/
def validMaxRounds (cfg : AutoConfig) : Bool := 1 ≤ cfg.max_rounds

/-- The multi-round entry: `AutoConfig` validation (spec-modelled, see
`validMaxRounds`), then the registry checks of `collaborate`, then the
round loop, whose runtime failures are all recovered internally. -/
def runMultiRound (jsonAgent : JsonAgentFn) (reg : Registry)
    (history : List Msg) (cfg : AutoConfig) :
    Except CollabError (List Msg) :=
  if !validMaxRounds cfg then .error .validationError
  else
    match reg.router, reg.expert, reg.assistant, reg.peer with
    | some router, some e, some a, some p =>
        .ok (multiRoundResponses jsonAgent router (respondOf e a p) history cfg)
    | _, _, _, _ => .error .configurationError

/-! ## Heuristic router (`src/app/core/agent_router.py`) -/

/-- The `AgentType` enumeration of `agent_router.py` (kept distinct from `AgentKey`: the
two modules define their own enumerations). -/
inductive AgentType where
  | expert
  | assistant
  | peer
deriving DecidableEq, Repr

/-- The cognitive-state fields read by `_analyze_context`
(`CognitiveState` in `app/models/schemas.py`; floats as `ℚ`). -/
structure CognitiveState where
  cognitive_load : ℚ
  attention_level : ℚ
  comprehension_rate : ℚ
  learning_progress : ℚ
deriving DecidableEq, Repr

/-- The part of `LearningContext` the router reads
(`context.cognitive_state`). -/
structure LearningContext where
  cognitive_state : CognitiveState
deriving DecidableEq, Repr

/-- The `RoutingResult` record of `agent_router.py`. -/
structure RoutingResult where
  agent_type : AgentType
  confidence : ℚ
  reason : String
  fallback_agents : List AgentType
deriving DecidableEq, Repr

/-- Translation of `self.expert_keywords`: theory / analysis / academic categories, in
declaration order (categories are flattened in the same order the Python
dictionary iterates; a keyword occurring in two categories counts twice,
as in the source's nested loops). -/
def expertKeywords : List String :=
  ["原理", "理论", "概念", "定义", "本质", "机制", "规律", "公式", "定理",
   "为什么", "原因", "分析", "解释", "探讨", "研究", "深入", "详细",
   "学术", "论文", "研究", "文献", "权威", "专业", "科学", "系统"]

/-- Translation of `self.assistant_keywords`: operation / practice / guidance
categories. -/
def assistantKeywords : List String :=
  ["怎么做", "如何", "方法", "步骤", "流程", "过程", "操作", "实现",
   "练习", "题目", "作业", "习题", "训练", "巩固", "复习", "检测",
   "指导", "帮助", "教", "学习", "掌握", "提高", "改进", "建议"]

/-- Translation of `self.peer_keywords`: exchange / emotion / daily-life categories. -/
def peerKeywords : List String :=
  ["讨论", "交流", "分享", "聊聊", "谈谈", "看法", "观点", "想法",
   "困难", "挫折", "焦虑", "压力", "鼓励", "支持", "陪伴", "理解",
   "日常", "生活", "经验", "感受", "心情", "状态", "情况", "体验"]

/-- The keyword list of each participant. -/
def keywordsFor : AgentType → List String
  | .expert => expertKeywords
  | .assistant => assistantKeywords
  | .peer => peerKeywords

/-- Raw hit count of `_analyze_keywords` for one participant: `+1.0` per
keyword contained in the lowercased question. -/
def keywordHits (t : AgentType) (questionLower : String) : ℚ :=
  (((keywordsFor t).filter (fun kw => hasSubstr kw questionLower)).length : ℚ)

/-- Translation of `_analyze_keywords`: per-participant hit counts, normalized by the
maximum count when it is positive (else divided by `1.0`). -/
def analyzeKeywords (question : String) : AgentType → ℚ :=
  let ql := pyLower question
  let raw : AgentType → ℚ := fun t => keywordHits t ql
  let maxRaw := max (raw .expert) (max (raw .assistant) (raw .peer))
  let divisor := if 0 < maxRaw then maxRaw else 1
  fun t => raw t / divisor

/-- Translation of `self.subject_preferences`, in declaration (iteration) order. -/
def subjectPreferences : List (String × AgentType) :=
  [("数学", .expert), ("物理", .expert), ("化学", .expert),
   ("编程", .assistant), ("语言", .peer), ("历史", .peer), ("文学", .peer)]

/-- Translation of `_analyze_subject`: `None` (or an empty subject, falsy in Python)
gives no signal; otherwise the first table subject contained in the
lowercased subject wins with weight `0.8`. -/
def analyzeSubject (subject : Option String) : Option AgentType × ℚ :=
  match subject with
  | none => (none, 0)
  | some s =>
      if s = "" then (none, 0)
      else
        let sl := pyLower s
        match subjectPreferences.find? (fun p => hasSubstr p.1 sl) with
        | some p => (some p.2, 0.8)
        | none => (none, 0)

/-- Translation of `_analyze_context`: first true rule only. -/
def analyzeContext (context : Option LearningContext) : Option AgentType × ℚ :=
  match context with
  | none => (none, 0)
  | some c =>
      let cs := c.cognitive_state
      if cs.cognitive_load > 0.7 then (some .peer, 0.6)
      else if cs.comprehension_rate < 0.4 then (some .assistant, 0.7)
      else if cs.learning_progress > 0.7 && cs.comprehension_rate > 0.7 then
        (some .expert, 0.6)
      else (none, 0)

/-- The combined score of `_make_final_decision`:
`0.4·keyword + 0.35·subject + 0.25·context`. -/
def finalScore (keywordScores : AgentType → ℚ)
    (subjectPreference contextPreference : Option AgentType × ℚ)
    (t : AgentType) : ℚ :=
  keywordScores t * 0.4
    + (if subjectPreference.1 = some t then subjectPreference.2 * 0.35 else 0)
    + (if contextPreference.1 = some t then contextPreference.2 * 0.25 else 0)

/-- Python `max(final_scores, key=final_scores.get)` over the insertion
order Expert, Assistant, Peer: the first participant with the maximal
score (a later participant replaces the current best only when strictly
greater). -/
def bestAgent (score : AgentType → ℚ) : AgentType :=
  let b1 : AgentType := .expert
  let b2 : AgentType := if score .assistant > score b1 then .assistant else b1
  if score .peer > score b2 then .peer else b2

/-- Stable descending insertion by score (Python `sorted(...,
key=lambda x: x[1], reverse=True)` is stable: ties keep their original
order). -/
def insertDesc (x : AgentType × ℚ) : List (AgentType × ℚ) → List (AgentType × ℚ)
  | [] => [x]
  | y :: ys => if x.2 ≥ y.2 then x :: y :: ys else y :: insertDesc x ys

/-- Stable descending sort of the scored participants. -/
def sortDesc : List (AgentType × ℚ) → List (AgentType × ℚ)
  | [] => []
  | x :: xs => insertDesc x (sortDesc xs)

/-- Translation of `_apply_default_rules`: long questions to Expert, questions containing
a question mark to Assistant, everything else to Peer. -/
def applyDefaultRules (question : String) : RoutingResult :=
  if question.length > 100 then
    ⟨.expert, 0.6, "问题较为复杂，选择专家智能体", [.assistant, .peer]⟩
  else if hasSubstr "?" question || hasSubstr "？" question then
    ⟨.assistant, 0.6, "问题需要指导解答，选择助教智能体", [.expert, .peer]⟩
  else
    ⟨.peer, 0.5, "一般性交流，选择同伴智能体", [.assistant, .expert]⟩

/-- Translation of `_generate_reason`. -/
def generateReason (agentType : AgentType) (keywordScores : AgentType → ℚ)
    (subjectPreference contextPreference : Option AgentType × ℚ) : String :=
  let reasons : List String :=
    (if keywordScores agentType > 0.5 then
      [match agentType with
       | .expert => "问题涉及理论分析"
       | .assistant => "问题需要操作指导"
       | .peer => "问题适合交流讨论"]
     else [])
    ++ (if subjectPreference.1 = some agentType && subjectPreference.2 > 0.5 then
          ["基于学科特点"] else [])
    ++ (if contextPreference.1 = some agentType && contextPreference.2 > 0.5 then
          ["基于学习状态"] else [])
  let reasons := if reasons = [] then ["综合分析结果"] else reasons
  String.intercalate "、" reasons

/-- Translation of `_make_final_decision`: combine the three signals, take the first
maximal participant, fall back to the default rules below `0.3`, and
otherwise report the winner with confidence `min(score, 1.0)` and the
remaining participants scoring above `0.1` as fallbacks, descending. -/
def makeFinalDecision (keywordScores : AgentType → ℚ)
    (subjectPreference contextPreference : Option AgentType × ℚ)
    (question : String) : RoutingResult :=
  let score := finalScore keywordScores subjectPreference contextPreference
  let best := bestAgent score
  let bestScore := score best
  if bestScore < 0.3 then applyDefaultRules question
  else
    let sortedAgents :=
      sortDesc [(.expert, score .expert), (.assistant, score .assistant),
                (.peer, score .peer)]
    let fallbacks := (sortedAgents.drop 1).filterMap
      (fun p => if p.2 > 0.1 then some p.1 else none)
    ⟨best, min bestScore 1,
     generateReason best keywordScores subjectPreference contextPreference,
     fallbacks⟩

/-- Translation of `route_agent` (`scoreRouting` in the spec): keyword, subject and
context analysis combined into a final decision.  The `try/except` of the
source cannot fire in this pure model (none of the analysis steps can
raise on the modelled inputs), so the exception default is not reachable
here. -/
def routeAgent (question : String) (subject : Option String)
    (context : Option LearningContext) : RoutingResult :=
  makeFinalDecision (analyzeKeywords question) (analyzeSubject subject)
    (analyzeContext context) question

/-! ## Heap model for the mutation claim (C8)

Python lists are mutable references.  To state that the core never mutates
the caller-supplied history, the list operations the scheduler performs
are replayed against an explicit store: `history.copy()` allocates a fresh
cell, and every `current_history.append(...)` writes to that fresh cell
only.  `mrLoopSt` is the same loop as `mrLoop`, with the working history
held in the store. -/

/-- A store of Python list objects: cell contents plus a fresh-address
counter. -/
structure Store where
  mem : Nat → List Msg
  next : Nat

/-- Allocate a fresh cell holding `v` (the `history.copy()` step). -/
def storeAlloc (σ : Store) (v : List Msg) : Store × Nat :=
  (⟨fun i => if i = σ.next then v else σ.mem i, σ.next + 1⟩, σ.next)

/-- Python `lst.append(m)` on the cell `r`. -/
def storeAppend (σ : Store) (r : Nat) (m : Msg) : Store :=
  ⟨fun i => if i = r then σ.mem i ++ [m] else σ.mem i, σ.next⟩

/-- The loop of `_multi_round_collaborate` with the working history as a
store cell `w`: identical to `mrLoop` except that the history is read
from, and appended to, the store. -/
def mrLoopSt (cfg : AutoConfig) (jsonAgent : JsonAgentFn) (router : RouterFn)
    (respond : AgentKey → ResponderFn) (userJustSpoke : Bool) :
    Nat → Store → Nat → Nat → Bool → Nat → Int → Store × List Ev
  | 0, σ, _, _, _, _, _ => (σ, [])
  | fuel + 1, σ, w, roundsDone, enteredDynamic, dynamicRoundsDone,
      dynamicMaxRounds =>
    match selectSpeaker cfg jsonAgent router userJustSpoke (σ.mem w) roundsDone
        enteredDynamic dynamicRoundsDone dynamicMaxRounds with
    | .brk evs => (σ, evs)
    | .go evs k enteredDynamic' dynamicRoundsDone' dynamicMaxRounds' =>
        match respond k (σ.mem w) with
        | .error _ => (σ, evs ++ [.replyFail k])
        | .ok c =>
            let m : Msg := ⟨agentName k, c⟩
            let σ' := storeAppend σ w m
            if stopHit cfg c then (σ', evs ++ [.reply k m])
            else
              let r := mrLoopSt cfg jsonAgent router respond userJustSpoke fuel
                σ' w (roundsDone + 1) enteredDynamic' dynamicRoundsDone'
                dynamicMaxRounds'
              (r.1, evs ++ .reply k m :: r.2)

/-- Translation of `_multi_round_collaborate` against the store: the caller's history
lives in cell `histRef`; the working copy is allocated fresh
(`current_history = history.copy()`), and all appends target the copy. -/
def multiRoundCollaborateSt (jsonAgent : JsonAgentFn) (router : RouterFn)
    (respond : AgentKey → ResponderFn) (σ : Store) (histRef : Nat)
    (cfg : AutoConfig) : Store × List Ev :=
  let history := σ.mem histRef
  let a := storeAlloc σ history
  mrLoopSt cfg jsonAgent router respond (detectUserIntervention history)
    cfg.max_rounds.toNat a.1 a.2 0 false 0 cfg.max_rounds

/-- Translation of `_single_round_collaborate` against the store: the function only reads
the caller's history (building the fresh `scoped_history` list) and never
appends to any existing cell, so the store passes through unchanged. -/
def singleRoundCollaborateSt (jsonAgent : JsonAgentFn) (router : RouterFn)
    (respond : AgentKey → ResponderFn) (σ : Store) (histRef : Nat) :
    Store × Except Unit (List Msg) :=
  (σ, singleRoundCollaborate jsonAgent router respond (σ.mem histRef))

/-! ## Claim-statement helpers -/

/-- Is the event a router consultation? -/
def isRouteEv : Ev → Bool
  | .route _ _ _ => true
  | _ => false

/-- Is the event a produced reply? -/
def isReplyEv : Ev → Bool
  | .reply _ _ => true
  | _ => false

/-- Is the event a raised invocation (a responder exception, or a router
exception)? -/
def isFailEv : Ev → Bool
  | .replyFail _ => true
  | .route raised _ _ => raised
  | _ => false

/-- The trace prefix up to and including the `k`-th produced reply (the
whole trace if fewer replies occur). -/
def upToKResponses : Nat → List Ev → List Ev
  | _, [] => []
  | 0, _ => []
  | k + 1, e :: es =>
      e :: (match e with
            | .reply _ _ => upToKResponses k es
            | _ => upToKResponses (k + 1) es)

/-- The trace suffix strictly after the first dynamic-stage entry. -/
def afterDynEntry : List Ev → List Ev
  | [] => []
  | .dynEntry _ _ _ :: es => es
  | _ :: es => afterDynEntry es

/-- Number of messages produced in the dynamic stage. -/
def dynRepliesOf (tr : List Ev) : Nat := (responsesOf (afterDynEntry tr)).length

/-- Claim C4 as stated: whenever a responder invocation or the router
invocation raises during any round, the loop terminates immediately and
returns exactly the messages of the preceding rounds — i.e. no reply event
ever follows a raised-invocation event. -/
def C4Statement : Prop :=
  ∀ (jsonAgent : JsonAgentFn) (router : RouterFn)
    (respond : AgentKey → ResponderFn) (history : List Msg)
    (cfg : AutoConfig) (i j : Nat) (e e' : Ev),
    (multiRoundCollaborate jsonAgent router respond history cfg).get? i = some e →
    isFailEv e = true → i < j →
    (multiRoundCollaborate jsonAgent router respond history cfg).get? j = some e' →
    isReplyEv e' = false

/-- Claim C5 as stated: the dynamic budget is computed from the working
history *at the moment of first entry* — if its most recent message has
role `user` and `continue_on_user_input` is false, at most one
dynamic-stage round is produced; otherwise the budget equals the remaining
round budget. -/
def C5Statement : Prop :=
  ∀ (jsonAgent : JsonAgentFn) (router : RouterFn)
    (respond : AgentKey → ResponderFn) (history : List Msg)
    (cfg : AutoConfig) (histAt : List Msg) (budget : Int) (roundsDone : Nat),
    Ev.dynEntry histAt budget roundsDone ∈
      multiRoundCollaborate jsonAgent router respond history cfg →
    if detectUserIntervention histAt && !cfg.continue_on_user_input then
      dynRepliesOf (multiRoundCollaborate jsonAgent router respond history cfg) ≤ 1
    else budget = cfg.max_rounds - (roundsDone : Int)

/-- The stop-keyword test exactly as claim C7 words it: the trimmed,
lowercased content contains some configured keyword (trimmed, lowercased),
with no non-emptiness requirement on the keyword. -/
def stopHitAsClaimed (cfg : AutoConfig) (content : String) : Bool :=
  let contentNorm := pyLower (pyStrip content)
  (cfg.stop_keywords.map (fun k => pyLower (pyStrip k))).any
    (fun k => hasSubstr k contentNorm)

/-- Claim C7 as stated: a produced message whose content contains any
configured stop keyword (in the claim's own sense, `stopHitAsClaimed`) is
the last produced message of the call. -/
def C7Statement : Prop :=
  ∀ (jsonAgent : JsonAgentFn) (reg : Registry) (history : List Msg)
    (cfg : AutoConfig) (l : List Msg) (i : Nat) (m : Msg),
    runMultiRound jsonAgent reg history cfg = .ok l →
    l.get? i = some m → stopHitAsClaimed cfg m.content = true →
    i + 1 = l.length

/-! ## Concrete fixtures for counterexamples and witnesses -/

/-- A decode oracle that always raises (any fixed oracle works for the
concrete evaluations; the bootstrap rounds never consult it). -/
def cxJson : JsonAgentFn := fun _ => .error ()

/-- A router oracle that always raises. -/
def cxRouterRaise : RouterFn := fun _ => .error ()

/-- A router oracle that always answers `peer`. -/
def cxRouterPeer : RouterFn := fun _ => .ok "peer"

/-- Responders that always answer a fixed harmless content. -/
def cxRespondOk : AgentKey → ResponderFn := fun _ _ => .ok "hello"

/-- Responders that always raise. -/
def cxRespondFail : AgentKey → ResponderFn := fun _ _ => .error ()

/-- A history in which all three participants have already spoken. -/
def cxHist3 : List Msg :=
  [⟨"专家智能体", "a"⟩, ⟨"助教智能体", "b"⟩, ⟨"同伴智能体", "c"⟩]

/-- A history consisting of a single user message. -/
def cxHistU : List Msg := [⟨"user", "hi"⟩]

/-- The working history at first dynamic entry reached from `cxHistU` with
responders answering `"hello"`. -/
def cxH3 : List Msg :=
  [⟨"user", "hi"⟩, ⟨"专家智能体", "hello"⟩, ⟨"助教智能体", "hello"⟩,
   ⟨"同伴智能体", "hello"⟩]

/-- A complete registry built from concrete oracles. -/
def cxReg (router : RouterFn) (respond : AgentKey → ResponderFn) : Registry :=
  ⟨some (respond .expert), some (respond .assistant), some (respond .peer),
   some router⟩

/-- Is the event one of the selection-phase observations (dynamic-stage
entry or router consultation)?  The selection phase of a round emits no
reply events. -/
def isSelEv : Ev → Bool
  | .dynEntry _ _ _ => true
  | .route _ _ _ => true
  | _ => false

/-- The events emitted by a selection outcome. -/
def evsOf : SelOutcome → List Ev
  | .brk evs => evs
  | .go evs _ _ _ _ => evs

/-! # Theorems -/

/-! ## Trace and selection lemmas -/

theorem responsesOf_append (l₁ l₂ : List Ev) :
    responsesOf (l₁ ++ l₂) = responsesOf l₁ ++ responsesOf l₂ := by
  simp [responsesOf]

theorem responsesOf_cons_reply (k : AgentKey) (m : Msg) (tr : List Ev) :
    responsesOf (.reply k m :: tr) = m :: responsesOf tr := rfl

theorem selectSpeaker_fixed (cfg : AutoConfig) (jsonAgent : JsonAgentFn)
    (router : RouterFn) (ujs : Bool) (hist : List Msg) (rd : Nat) (ed : Bool)
    (dd : Nat) (dm : Int) (k : AgentKey)
    (hst : (isInFixedOrderStage hist).2 = some k) :
    selectSpeaker cfg jsonAgent router ujs hist rd ed dd dm =
      .go [] k ed dd dm := by
  simp only [selectSpeaker, hst]

theorem selectSpeaker_dyn (cfg : AutoConfig) (jsonAgent : JsonAgentFn)
    (router : RouterFn) (ujs : Bool) (hist : List Msg) (rd : Nat) (ed : Bool)
    (dd : Nat) (dm : Int)
    (hst : (isInFixedOrderStage hist).2 = none) :
    selectSpeaker cfg jsonAgent router ujs hist rd ed dd dm =
      (let dm' : Int := if !ed then dynMaxOnEntry cfg ujs rd else dm
       let evs : List Ev := if !ed then [.dynEntry hist dm' rd] else []
       if (dd : Int) ≥ dm' then .brk evs
       else
         match routeNextSpeaker jsonAgent router hist with
         | (raised, key, osel) =>
             let evs' := evs ++ [.route raised key osel]
             if key = "STOP" then .brk evs'
             else
               match osel with
               | some k => .go evs' k true (dd + 1) dm'
               | none => .brk evs') := by
  simp only [selectSpeaker, hst]

theorem selectSpeaker_selEv (cfg : AutoConfig) (jsonAgent : JsonAgentFn)
    (router : RouterFn) (ujs : Bool) (hist : List Msg) (rd : Nat) (ed : Bool)
    (dd : Nat) (dm : Int) :
    ∀ e ∈ evsOf (selectSpeaker cfg jsonAgent router ujs hist rd ed dd dm),
      isSelEv e = true := by
  rcases hst : (isInFixedOrderStage hist).2 with _ | k
  · rw [selectSpeaker_dyn cfg jsonAgent router ujs hist rd ed dd dm hst]
    by_cases hb : (dd : Int) ≥ (if !ed then dynMaxOnEntry cfg ujs rd else dm)
    · rw [if_pos hb]; cases ed <;> simp [evsOf, isSelEv]
    · rw [if_neg hb]
      rcases hr : routeNextSpeaker jsonAgent router hist with ⟨ra, key, os⟩
      simp only [hr]
      by_cases hstop : key = "STOP"
      · rw [if_pos hstop]
        cases ed <;> intro e he <;> simp [evsOf] at he <;>
          rcases he with rfl | rfl <;> rfl
      · rw [if_neg hstop]
        cases os <;> cases ed <;> intro e he <;> simp [evsOf] at he <;>
          try subst he
        all_goals try rfl
        all_goals rcases he with rfl | rfl <;> rfl
  · rw [selectSpeaker_fixed cfg jsonAgent router ujs hist rd ed dd dm k hst]
    intro e he; simp [evsOf] at he

theorem responsesOf_selEv : ∀ {l : List Ev},
    (∀ e ∈ l, isSelEv e = true) → responsesOf l = [] := by
  intro l h
  induction l with
  | nil => rfl
  | cons e es ih =>
      have he := h e (List.mem_cons_self e es)
      have hes : ∀ x ∈ es, isSelEv x = true :=
        fun x hx => h x (List.mem_cons_of_mem e hx)
      cases e with
      | dynEntry a b c => simpa [responsesOf, List.filterMap_cons] using ih hes
      | route a b c => simpa [responsesOf, List.filterMap_cons] using ih hes
      | reply k m => simp [isSelEv] at he
      | replyFail k => simp [isSelEv] at he

theorem mrLoop_succ (cfg : AutoConfig) (jsonAgent : JsonAgentFn)
    (router : RouterFn) (respond : AgentKey → ResponderFn) (ujs : Bool)
    (fuel : Nat) (hist : List Msg) (rd : Nat) (ed : Bool) (dd : Nat)
    (dm : Int) :
    mrLoop cfg jsonAgent router respond ujs (fuel + 1) hist rd ed dd dm =
      match selectSpeaker cfg jsonAgent router ujs hist rd ed dd dm with
      | .brk evs => evs
      | .go evs k ed' dd' dm' =>
          evs ++
            match respond k hist with
            | .error _ => [.replyFail k]
            | .ok c =>
                .reply k ⟨agentName k, c⟩ ::
                  (if stopHit cfg c then []
                   else mrLoop cfg jsonAgent router respond ujs fuel
                     (hist ++ [⟨agentName k, c⟩]) (rd + 1) ed' dd' dm') := rfl

theorem selEv_of_brk {cfg jsonAgent router ujs hist rd ed dd dm evs}
    (h : selectSpeaker cfg jsonAgent router ujs hist rd ed dd dm = .brk evs) :
    ∀ e ∈ evs, isSelEv e = true := by
  have := selectSpeaker_selEv cfg jsonAgent router ujs hist rd ed dd dm
  rw [h] at this; exact this

theorem selEv_of_go {cfg jsonAgent router ujs hist rd ed dd dm evs k ed' dd' dm'}
    (h : selectSpeaker cfg jsonAgent router ujs hist rd ed dd dm =
      .go evs k ed' dd' dm') :
    ∀ e ∈ evs, isSelEv e = true := by
  have := selectSpeaker_selEv cfg jsonAgent router ujs hist rd ed dd dm
  rw [h] at this; exact this

theorem responsesOf_nil : responsesOf [] = [] := rfl

theorem responsesOf_replyFail (k : AgentKey) :
    responsesOf [Ev.replyFail k] = [] := rfl

theorem responsesOf_route_cons (a : Bool) (b : String) (c : Option AgentKey)
    (tr : List Ev) : responsesOf (.route a b c :: tr) = responsesOf tr := rfl

theorem responsesOf_dynEntry_cons (h : List Msg) (b : Int) (r : Nat)
    (tr : List Ev) : responsesOf (.dynEntry h b r :: tr) = responsesOf tr := rfl

theorem mrLoop_responses_length (cfg : AutoConfig) (jsonAgent : JsonAgentFn)
    (router : RouterFn) (respond : AgentKey → ResponderFn) (ujs : Bool) :
    ∀ (fuel : Nat) (hist : List Msg) (rd : Nat) (ed : Bool) (dd : Nat)
      (dm : Int),
      (responsesOf (mrLoop cfg jsonAgent router respond ujs fuel hist rd ed dd
        dm)).length ≤ fuel := by
  intro fuel
  induction fuel with
  | zero => intro hist rd ed dd dm; simp [mrLoop, responsesOf]
  | succ f ih =>
      intro hist rd ed dd dm
      rw [mrLoop_succ]
      cases hsel : selectSpeaker cfg jsonAgent router ujs hist rd ed dd dm with
      | brk evs => simp [responsesOf_selEv (selEv_of_brk hsel)]
      | go evs k ed' dd' dm' =>
          have h0 : responsesOf evs = [] := responsesOf_selEv (selEv_of_go hsel)
          cases hresp : respond k hist with
          | error u =>
              simp [hresp, responsesOf_append, h0, responsesOf_replyFail]
          | ok c =>
              by_cases hstop : stopHit cfg c
              · simp [hresp, responsesOf_append, h0, responsesOf_cons_reply,
                  hstop, responsesOf_nil]
              · simp only [hresp, responsesOf_append, h0, hstop,
                  responsesOf_cons_reply, List.nil_append, List.length_cons,
                  if_false, Bool.false_eq_true]
                exact Nat.succ_le_succ (ih _ _ _ _ _)

theorem mrLoop_stop_last (cfg : AutoConfig) (jsonAgent : JsonAgentFn)
    (router : RouterFn) (respond : AgentKey → ResponderFn) (ujs : Bool) :
    ∀ (fuel : Nat) (hist : List Msg) (rd : Nat) (ed : Bool) (dd : Nat)
      (dm : Int) (i : Nat) (m : Msg),
      (responsesOf (mrLoop cfg jsonAgent router respond ujs fuel hist rd ed dd
        dm)).get? i = some m →
      stopHit cfg m.content = true →
      i + 1 = (responsesOf (mrLoop cfg jsonAgent router respond ujs fuel hist
        rd ed dd dm)).length := by
  intro fuel
  induction fuel with
  | zero =>
      intro hist rd ed dd dm i m hget _
      simp [mrLoop, responsesOf] at hget
  | succ f ih =>
      intro hist rd ed dd dm i m hget hstopm
      rw [mrLoop_succ] at hget ⊢
      cases hsel : selectSpeaker cfg jsonAgent router ujs hist rd ed dd dm with
      | brk evs =>
          rw [hsel] at hget
          simp [responsesOf_selEv (selEv_of_brk hsel)] at hget
      | go evs k ed' dd' dm' =>
          have h0 : responsesOf evs = [] := responsesOf_selEv (selEv_of_go hsel)
          rw [hsel] at hget
          dsimp only at hget ⊢
          cases hresp : respond k hist with
          | error u =>
              simp only [hresp] at hget
              simp [responsesOf_append, h0, responsesOf_replyFail] at hget
          | ok c =>
              simp only [hresp] at hget ⊢
              by_cases hstop : stopHit cfg c
              · simp only [responsesOf_append, h0, hstop, if_true,
                  responsesOf_cons_reply, responsesOf_nil,
                  List.nil_append] at hget ⊢
                cases i with
                | zero => simp
                | succ i' => simp at hget
              · simp only [responsesOf_append, h0, hstop,
                  responsesOf_cons_reply, List.nil_append, if_false,
                  Bool.false_eq_true] at hget ⊢
                cases i with
                | zero =>
                    simp only [List.get?_cons_zero, Option.some_inj] at hget
                    subst hget
                    rw [hstopm] at hstop
                    exact absurd rfl hstop
                | succ i' =>
                    simp only [List.get?_cons_succ] at hget
                    simp only [List.length_cons]
                    have := ih _ _ _ _ _ i' m hget hstopm
                    omega

theorem isSelEv_replyFail_false (k : AgentKey) :
    isSelEv (Ev.replyFail k) = false := rfl

theorem mrLoop_replyFail_last (cfg : AutoConfig) (jsonAgent : JsonAgentFn)
    (router : RouterFn) (respond : AgentKey → ResponderFn) (ujs : Bool) :
    ∀ (fuel : Nat) (hist : List Msg) (rd : Nat) (ed : Bool) (dd : Nat)
      (dm : Int) (k : AgentKey),
      Ev.replyFail k ∈ mrLoop cfg jsonAgent router respond ujs fuel hist rd ed
        dd dm →
      (mrLoop cfg jsonAgent router respond ujs fuel hist rd ed dd
        dm).getLast? = some (.replyFail k) := by
  intro fuel
  induction fuel with
  | zero => intro hist rd ed dd dm k hmem; simp [mrLoop] at hmem
  | succ f ih =>
      intro hist rd ed dd dm k hmem
      rw [mrLoop_succ] at hmem ⊢
      cases hsel : selectSpeaker cfg jsonAgent router ujs hist rd ed dd dm with
      | brk evs =>
          rw [hsel] at hmem
          have := selEv_of_brk hsel _ hmem
          simp [isSelEv] at this
      | go evs k' ed' dd' dm' =>
          rw [hsel] at hmem
          cases hresp : respond k' hist with
          | error u =>
              simp only [hresp] at hmem ⊢
              rcases List.mem_append.1 hmem with hin | hin
              · have := selEv_of_go hsel _ hin
                simp [isSelEv] at this
              · simp only [List.mem_singleton] at hin
                rw [hin]
                exact List.getLast?_concat _
          | ok c =>
              simp only [hresp] at hmem ⊢
              by_cases hstop : stopHit cfg c
              · rw [if_pos hstop] at hmem ⊢
                rcases List.mem_append.1 hmem with hin | hin
                · have := selEv_of_go hsel _ hin
                  simp [isSelEv] at this
                · simp at hin
              · rw [if_neg hstop] at hmem ⊢
                rcases List.mem_append.1 hmem with hin | hin
                · have := selEv_of_go hsel _ hin
                  simp [isSelEv] at this
                · rcases List.mem_cons.1 hin with heq | hin'
                  · exact absurd heq (by simp)
                  · have hrest := ih _ _ _ _ _ k hin'
                    have hne : mrLoop cfg jsonAgent router respond ujs f
                        (hist ++ [⟨agentName k', c⟩]) (rd + 1) ed' dd' dm' ≠
                        [] := by
                      intro h0; rw [h0] at hin'; simp at hin'
                    rw [List.getLast?_append_cons, ← List.singleton_append,
                      List.getLast?_append_of_ne_nil _ hne]
                    exact hrest

theorem hasSpoken_append (k : AgentKey) (h l : List Msg) :
    hasSpoken k (h ++ l) = (hasSpoken k h || hasSpoken k l) := by
  simp [hasSpoken]

theorem stage_none_iff (h : List Msg) :
    (isInFixedOrderStage h).2 = none ↔
      (hasSpoken .expert h = true ∧ hasSpoken .assistant h = true ∧
        hasSpoken .peer h = true) := by
  unfold isInFixedOrderStage
  split_ifs with h1 h2 h3 <;> simp_all

theorem stage_none_append (h l : List Msg)
    (hst : (isInFixedOrderStage h).2 = none) :
    (isInFixedOrderStage (h ++ l)).2 = none := by
  rw [stage_none_iff] at hst ⊢
  obtain ⟨he, ha, hp⟩ := hst
  refine ⟨?_, ?_, ?_⟩ <;> simp [hasSpoken_append, he, ha, hp]

theorem mrLoop_dyn_replies_bound (cfg : AutoConfig) (jsonAgent : JsonAgentFn)
    (router : RouterFn) (respond : AgentKey → ResponderFn) (ujs : Bool) :
    ∀ (fuel : Nat) (hist : List Msg) (rd : Nat) (dd : Nat) (dm : Int),
      (isInFixedOrderStage hist).2 = none →
      (responsesOf (mrLoop cfg jsonAgent router respond ujs fuel hist rd true
        dd dm)).length ≤ (dm - (dd : Int)).toNat := by
  intro fuel
  induction fuel with
  | zero => intro hist rd dd dm _; simp [mrLoop, responsesOf]
  | succ f ih =>
      intro hist rd dd dm hst
      rw [mrLoop_succ, selectSpeaker_dyn cfg jsonAgent router ujs hist rd true
        dd dm hst]
      simp only [Bool.not_true, Bool.false_eq_true, if_false]
      by_cases hb : (dd : Int) ≥ dm
      · rw [if_pos hb]; simp [responsesOf_nil]
      · rw [if_neg hb]
        rcases hr : routeNextSpeaker jsonAgent router hist with ⟨ra, key, os⟩
        dsimp only
        by_cases hstop : key = "STOP"
        · rw [if_pos hstop]
          simp [responsesOf, isSelEv]
        · rw [if_neg hstop]
          cases os with
          | none => simp [responsesOf]
          | some k =>
              dsimp only
              cases hresp : respond k hist with
              | error u => simp [responsesOf]
              | ok c =>
                  dsimp only
                  by_cases hsk : stopHit cfg c
                  · rw [if_pos hsk]
                    rw [List.nil_append, List.singleton_append,
                      responsesOf_route_cons, responsesOf_cons_reply]
                    simp only [responsesOf_nil, List.length_cons,
                      List.length_nil]
                    omega
                  · rw [if_neg hsk]
                    have hrec := ih (hist ++ [⟨agentName k, c⟩]) (rd + 1)
                      (dd + 1) dm (stage_none_append _ _ hst)
                    rw [List.nil_append, List.singleton_append,
                      responsesOf_route_cons, responsesOf_cons_reply]
                    simp only [List.length_cons]
                    omega

theorem afterDynEntry_cons_dynEntry (h : List Msg) (b : Int) (r : Nat)
    (tr : List Ev) : afterDynEntry (.dynEntry h b r :: tr) = tr := rfl

theorem afterDynEntry_cons_route (a : Bool) (b : String) (c : Option AgentKey)
    (tr : List Ev) : afterDynEntry (.route a b c :: tr) = afterDynEntry tr :=
  rfl

theorem afterDynEntry_cons_reply (k : AgentKey) (m : Msg) (tr : List Ev) :
    afterDynEntry (.reply k m :: tr) = afterDynEntry tr := rfl

theorem afterDynEntry_cons_replyFail (k : AgentKey) (tr : List Ev) :
    afterDynEntry (.replyFail k :: tr) = afterDynEntry tr := rfl

theorem mrLoop_no_dynEntry_true (cfg : AutoConfig) (jsonAgent : JsonAgentFn)
    (router : RouterFn) (respond : AgentKey → ResponderFn) (ujs : Bool) :
    ∀ (fuel : Nat) (hist : List Msg) (rd : Nat) (dd : Nat) (dm : Int)
      (h : List Msg) (b : Int) (r : Nat),
      Ev.dynEntry h b r ∈ mrLoop cfg jsonAgent router respond ujs fuel hist rd
        true dd dm → False := by
  intro fuel
  induction fuel with
  | zero => intro hist rd dd dm h b r hmem; simp [mrLoop] at hmem
  | succ f ih =>
      intro hist rd dd dm h b r hmem
      rw [mrLoop_succ] at hmem
      rcases hst : (isInFixedOrderStage hist).2 with _ | k
      · rw [selectSpeaker_dyn cfg jsonAgent router ujs hist rd true dd dm
          hst] at hmem
        simp only [Bool.not_true, Bool.false_eq_true, if_false] at hmem
        by_cases hb : (dd : Int) ≥ dm
        · rw [if_pos hb] at hmem; simp at hmem
        · rw [if_neg hb] at hmem
          rcases hr : routeNextSpeaker jsonAgent router hist with ⟨ra, key, os⟩
          rw [hr] at hmem
          dsimp only at hmem
          by_cases hstop : key = "STOP"
          · rw [if_pos hstop] at hmem; simp at hmem
          · rw [if_neg hstop] at hmem
            cases os with
            | none => simp at hmem
            | some k =>
                dsimp only at hmem
                cases hresp : respond k hist with
                | error u => rw [hresp] at hmem; simp at hmem
                | ok c =>
                    rw [hresp] at hmem
                    dsimp only at hmem
                    by_cases hsk : stopHit cfg c
                    · rw [if_pos hsk] at hmem; simp at hmem
                    · rw [if_neg hsk] at hmem
                      simp only [List.nil_append, List.singleton_append,
                        List.mem_cons] at hmem
                      rcases hmem with h1 | h1 | h1
                      · exact absurd h1 (by simp)
                      · exact absurd h1 (by simp)
                      · exact ih _ _ _ _ _ _ _ h1
      · rw [selectSpeaker_fixed cfg jsonAgent router ujs hist rd true dd dm k
          hst] at hmem
        dsimp only at hmem
        cases hresp : respond k hist with
        | error u => rw [hresp] at hmem; simp at hmem
        | ok c =>
            rw [hresp] at hmem
            dsimp only at hmem
            by_cases hsk : stopHit cfg c
            · rw [if_pos hsk] at hmem; simp at hmem
            · rw [if_neg hsk] at hmem
              simp only [List.nil_append, List.mem_cons] at hmem
              rcases hmem with h1 | h1
              · exact absurd h1 (by simp)
              · exact ih _ _ _ _ _ _ _ h1

theorem mrLoop_dynEntry_core (cfg : AutoConfig) (jsonAgent : JsonAgentFn)
    (router : RouterFn) (respond : AgentKey → ResponderFn) (ujs : Bool) :
    ∀ (fuel : Nat) (hist : List Msg) (rd : Nat) (dm : Int)
      (h : List Msg) (b : Int) (r : Nat),
      Ev.dynEntry h b r ∈ mrLoop cfg jsonAgent router respond ujs fuel hist rd
        false 0 dm →
      b = dynMaxOnEntry cfg ujs r ∧
      (responsesOf (afterDynEntry (mrLoop cfg jsonAgent router respond ujs fuel
        hist rd false 0 dm))).length ≤ b.toNat := by
  intro fuel
  induction fuel with
  | zero => intro hist rd dm h b r hmem; simp [mrLoop] at hmem
  | succ f ih =>
      intro hist rd dm h b r hmem
      rw [mrLoop_succ] at hmem ⊢
      rcases hst : (isInFixedOrderStage hist).2 with _ | k
      · rw [selectSpeaker_dyn cfg jsonAgent router ujs hist rd false 0 dm
          hst] at hmem ⊢
        simp only [Bool.not_false, if_true, Nat.cast_zero] at hmem ⊢
        by_cases hb : (0 : Int) ≥ dynMaxOnEntry cfg ujs rd
        · rw [if_pos hb] at hmem ⊢
          dsimp only at hmem ⊢
          simp only [List.mem_singleton, Ev.dynEntry.injEq] at hmem
          obtain ⟨rfl, rfl, rfl⟩ := hmem
          exact ⟨rfl, by simp [afterDynEntry_cons_dynEntry, responsesOf_nil]⟩
        · rw [if_neg hb] at hmem ⊢
          rcases hr : routeNextSpeaker jsonAgent router hist with ⟨ra, key, os⟩
          try rw [hr] at hmem
          try rw [hr]
          try dsimp only at hmem
          try dsimp only
          by_cases hstop : key = "STOP"
          · rw [if_pos hstop] at hmem ⊢
            dsimp only at hmem ⊢
            simp only [List.singleton_append, List.cons_append,
              List.nil_append, List.mem_cons, Ev.dynEntry.injEq] at hmem
            rcases hmem with ⟨rfl, rfl, rfl⟩ | hmem
            · refine ⟨rfl, ?_⟩
              simp only [List.singleton_append, List.cons_append,
                afterDynEntry_cons_dynEntry, responsesOf_route_cons,
                responsesOf_nil, List.length_nil]
              exact Nat.zero_le _
            · simp at hmem
          · rw [if_neg hstop] at hmem ⊢
            cases os with
            | none =>
                try dsimp only at hmem
                try dsimp only
                simp only [List.singleton_append, List.cons_append,
                  List.nil_append, List.mem_cons, Ev.dynEntry.injEq] at hmem
                rcases hmem with ⟨rfl, rfl, rfl⟩ | hmem
                · refine ⟨rfl, ?_⟩
                  simp only [List.singleton_append, List.cons_append,
                    afterDynEntry_cons_dynEntry, responsesOf_route_cons,
                    responsesOf_nil, List.length_nil]
                  exact Nat.zero_le _
                · simp at hmem
            | some k =>
                try dsimp only at hmem
                try dsimp only
                cases hresp : respond k hist with
                | error u =>
                    try rw [hresp] at hmem
                    try rw [hresp]
                    try dsimp only at hmem
                    try dsimp only
                    simp only [List.singleton_append, List.cons_append,
                      List.nil_append, List.mem_cons,
                      Ev.dynEntry.injEq] at hmem
                    rcases hmem with ⟨rfl, rfl, rfl⟩ | hmem
                    · refine ⟨rfl, ?_⟩
                      simp only [List.singleton_append, List.cons_append,
                        List.nil_append, afterDynEntry_cons_dynEntry,
                        responsesOf_route_cons, responsesOf_replyFail,
                        List.length_nil]
                      exact Nat.zero_le _
                    · simp at hmem
                | ok c =>
                    try rw [hresp] at hmem
                    try rw [hresp]
                    try dsimp only at hmem
                    try dsimp only
                    by_cases hsk : stopHit cfg c
                    · rw [if_pos hsk] at hmem ⊢
                      simp only [List.singleton_append, List.cons_append,
                        List.nil_append, List.mem_cons,
                        Ev.dynEntry.injEq] at hmem
                      rcases hmem with ⟨rfl, rfl, rfl⟩ | hmem
                      · refine ⟨rfl, ?_⟩
                        simp only [List.singleton_append, List.cons_append,
                          List.nil_append, afterDynEntry_cons_dynEntry,
                          responsesOf_route_cons, responsesOf_cons_reply,
                          responsesOf_nil, List.length_cons, List.length_nil]
                        omega
                      · simp at hmem
                    · rw [if_neg hsk] at hmem ⊢
                      simp only [List.singleton_append, List.cons_append,
                        List.nil_append, List.mem_cons,
                        Ev.dynEntry.injEq] at hmem
                      rcases hmem with ⟨hh, hbq, hrq⟩ | hmem | hmem | hmem
                      · constructor
                        · rw [hbq, hrq]
                        · rw [hbq]
                          simp only [List.singleton_append, List.cons_append,
                            List.nil_append, afterDynEntry_cons_dynEntry,
                            responsesOf_route_cons, responsesOf_cons_reply,
                            List.length_cons, Nat.zero_add]
                          have hrest := mrLoop_dyn_replies_bound cfg jsonAgent
                            router respond ujs f
                            (hist ++ [⟨agentName k, c⟩]) (rd + 1) 1
                            (dynMaxOnEntry cfg ujs rd)
                            (stage_none_append _ _ hst)
                          simp only [Nat.cast_one] at hrest
                          omega
                      · simp at hmem
                      · simp at hmem
                      · exact (mrLoop_no_dynEntry_true cfg jsonAgent router
                          respond ujs f _ _ _ _ _ _ _ hmem).elim
      · rw [selectSpeaker_fixed cfg jsonAgent router ujs hist rd false 0 dm k
          hst] at hmem ⊢
        try dsimp only at hmem
        try dsimp only
        cases hresp : respond k hist with
        | error u =>
            try rw [hresp] at hmem
            try dsimp only at hmem
            simp at hmem
        | ok c =>
            try rw [hresp] at hmem
            try rw [hresp]
            try dsimp only at hmem
            try dsimp only
            by_cases hsk : stopHit cfg c
            · rw [if_pos hsk] at hmem; simp at hmem
            · rw [if_neg hsk] at hmem ⊢
              simp only [List.nil_append, List.mem_cons] at hmem
              rcases hmem with hmem | hmem
              · exact absurd hmem (by simp)
              · have := ih _ _ _ _ _ _ hmem
                simp only [List.nil_append, afterDynEntry_cons_reply]
                exact this

/-! ## Store (mutation) lemmas -/

theorem storeAppend_mem_other (σ : Store) (w r : Nat) (m : Msg)
    (hne : r ≠ w) : (storeAppend σ w m).mem r = σ.mem r := by
  simp [storeAppend, hne]

theorem storeAppend_mem_self (σ : Store) (w : Nat) (m : Msg) :
    (storeAppend σ w m).mem w = σ.mem w ++ [m] := by
  simp [storeAppend]

theorem mrLoopSt_frame (cfg : AutoConfig) (jsonAgent : JsonAgentFn)
    (router : RouterFn) (respond : AgentKey → ResponderFn) (ujs : Bool) :
    ∀ (fuel : Nat) (σ : Store) (w : Nat) (rd : Nat) (ed : Bool) (dd : Nat)
      (dm : Int) (r : Nat), r ≠ w →
      ((mrLoopSt cfg jsonAgent router respond ujs fuel σ w rd ed dd
        dm).1).mem r = σ.mem r := by
  intro fuel
  induction fuel with
  | zero => intro σ w rd ed dd dm r _; rfl
  | succ f ih =>
      intro σ w rd ed dd dm r hne
      rw [mrLoopSt]
      cases hsel : selectSpeaker cfg jsonAgent router ujs (σ.mem w) rd ed dd
        dm with
      | brk evs => rfl
      | go evs k ed' dd' dm' =>
          try dsimp only
          cases hresp : respond k (σ.mem w) with
          | error u => simp only [hresp]
          | ok c =>
              simp only [hresp]
              try dsimp only
              by_cases hsk : stopHit cfg c
              · simp only [hsk, if_true]
                exact storeAppend_mem_other σ w r _ hne
              · simp only [hsk, if_false, Bool.false_eq_true]
                rw [ih _ _ _ _ _ _ _ hne]
                exact storeAppend_mem_other σ w r _ hne

theorem mrLoopSt_events (cfg : AutoConfig) (jsonAgent : JsonAgentFn)
    (router : RouterFn) (respond : AgentKey → ResponderFn) (ujs : Bool) :
    ∀ (fuel : Nat) (σ : Store) (w : Nat) (rd : Nat) (ed : Bool) (dd : Nat)
      (dm : Int),
      (mrLoopSt cfg jsonAgent router respond ujs fuel σ w rd ed dd dm).2 =
        mrLoop cfg jsonAgent router respond ujs fuel (σ.mem w) rd ed dd dm := by
  intro fuel
  induction fuel with
  | zero => intro σ w rd ed dd dm; rfl
  | succ f ih =>
      intro σ w rd ed dd dm
      rw [mrLoopSt, mrLoop_succ]
      cases hsel : selectSpeaker cfg jsonAgent router ujs (σ.mem w) rd ed dd
        dm with
      | brk evs => rfl
      | go evs k ed' dd' dm' =>
          try dsimp only
          cases hresp : respond k (σ.mem w) with
          | error u => simp only [hresp]
          | ok c =>
              simp only [hresp]
              try dsimp only
              by_cases hsk : stopHit cfg c
              · simp [hsk]
              · simp only [hsk, if_false, Bool.false_eq_true]
                rw [ih]
                rw [storeAppend_mem_self]

theorem mrLoop_fixed_round (cfg : AutoConfig) (jsonAgent : JsonAgentFn)
    (router : RouterFn) (respond : AgentKey → ResponderFn) (ujs : Bool)
    (fuel : Nat) (hist : List Msg) (rd : Nat) (ed : Bool) (dd : Nat)
    (dm : Int) (k : AgentKey)
    (hst : (isInFixedOrderStage hist).2 = some k) :
    mrLoop cfg jsonAgent router respond ujs (fuel + 1) hist rd ed dd dm =
      match respond k hist with
      | .error _ => [.replyFail k]
      | .ok c =>
          .reply k ⟨agentName k, c⟩ ::
            (if stopHit cfg c then []
             else mrLoop cfg jsonAgent router respond ujs fuel
               (hist ++ [⟨agentName k, c⟩]) (rd + 1) ed dd dm) := by
  rw [mrLoop_succ, selectSpeaker_fixed cfg jsonAgent router ujs hist rd ed dd
    dm k hst]
  simp only [List.nil_append]

theorem hasSpoken_concat (k : AgentKey) (h : List Msg) (m : Msg) :
    hasSpoken k (h ++ [m]) = (hasSpoken k h || matchesAgent k m.role) := by
  simp [hasSpoken]

/-- C1: for every input history in which no participant alias appears, the
first three produced messages of `_multi_round_collaborate` are spoken by
Expert, Assistant and Peer in that fixed order, and the Router is never
consulted before the third message is produced, regardless of Router (and
responder-content) behaviour. -/
theorem upToKResponses_zero (l : List Ev) : upToKResponses 0 l = [] := by
  cases l <;> rfl

theorem claim_C1_bootstrap_order (jsonAgent : JsonAgentFn) (router : RouterFn)
    (respond : AgentKey → ResponderFn) (history : List Msg) (cfg : AutoConfig)
    (H : ∀ m ∈ history, ∀ k, matchesAgent k m.role = false) :
    (∀ e ∈ upToKResponses 3
        (multiRoundCollaborate jsonAgent router respond history cfg),
      isRouteEv e = false) ∧
    speakersOf (upToKResponses 3
        (multiRoundCollaborate jsonAgent router respond history cfg)) <+:
      [AgentKey.expert, AgentKey.assistant, AgentKey.peer] := by
  have d1 : matchesAgent AgentKey.expert (agentName AgentKey.expert) = true :=
    by decide
  have d2 : matchesAgent AgentKey.assistant (agentName AgentKey.expert) =
      false := by decide
  have d3 : matchesAgent AgentKey.peer (agentName AgentKey.expert) = false :=
    by decide
  have d4 : matchesAgent AgentKey.assistant (agentName AgentKey.assistant) =
      true := by decide
  have d5 : matchesAgent AgentKey.peer (agentName AgentKey.assistant) =
      false := by decide
  have hE0 : hasSpoken .expert history = false := by
    simp only [hasSpoken, List.any_eq_false]
    intro m hm; simp [H m hm AgentKey.expert]
  have hA0 : hasSpoken .assistant history = false := by
    simp only [hasSpoken, List.any_eq_false]
    intro m hm; simp [H m hm AgentKey.assistant]
  have hP0 : hasSpoken .peer history = false := by
    simp only [hasSpoken, List.any_eq_false]
    intro m hm; simp [H m hm AgentKey.peer]
  have hst1 : (isInFixedOrderStage history).2 = some .expert := by
    simp [isInFixedOrderStage, hE0]
  unfold multiRoundCollaborate
  generalize cfg.max_rounds.toNat = n
  cases n with
  | zero =>
      constructor
      · intro e he; simp [mrLoop, upToKResponses_zero, upToKResponses] at he
      · simp [mrLoop, upToKResponses_zero, upToKResponses, speakersOf]
  | succ n1 =>
      rw [mrLoop_fixed_round cfg jsonAgent router respond _ n1 history 0 false
        0 cfg.max_rounds .expert hst1]
      cases hr1 : respond .expert history with
      | error u =>
          try dsimp only
          constructor
          · intro e he
            simp [upToKResponses_zero, upToKResponses] at he
            all_goals first
            | exact he.elim
            | (subst he; rfl)
            | (rcases he with rfl | rfl <;> rfl)
            | (rcases he with rfl | rfl | rfl <;> rfl)
          · simp [upToKResponses_zero, upToKResponses, speakersOf]
            all_goals first
            | exact List.nil_prefix
            | exact List.prefix_rfl
            | exact ⟨[AgentKey.assistant, AgentKey.peer], rfl⟩
            | exact ⟨[AgentKey.peer], rfl⟩
      | ok c1 =>
          try dsimp only
          by_cases hs1 : stopHit cfg c1
          · rw [if_pos hs1]
            constructor
            · intro e he
              simp [upToKResponses_zero, upToKResponses] at he
              all_goals first
              | exact he.elim
              | (subst he; rfl)
              | (rcases he with rfl | rfl <;> rfl)
            · simp [upToKResponses_zero, upToKResponses, speakersOf]
              all_goals first
              | exact List.nil_prefix
              | exact List.prefix_rfl
              | exact ⟨[AgentKey.assistant, AgentKey.peer], rfl⟩
          · rw [if_neg hs1]
            have h1E : hasSpoken .expert
                (history ++ [⟨agentName .expert, c1⟩]) = true := by
              rw [hasSpoken_concat]; simp [d1]
            have h1A : hasSpoken .assistant
                (history ++ [⟨agentName .expert, c1⟩]) = false := by
              rw [hasSpoken_concat]; simp [hA0, d2]
            have h1P : hasSpoken .peer
                (history ++ [⟨agentName .expert, c1⟩]) = false := by
              rw [hasSpoken_concat]; simp [hP0, d3]
            have hst2 : (isInFixedOrderStage
                (history ++ [⟨agentName .expert, c1⟩])).2 = some .assistant :=
              by simp [isInFixedOrderStage, h1E, h1A]
            cases n1 with
            | zero =>
                constructor
                · intro e he
                  simp [mrLoop, upToKResponses_zero, upToKResponses] at he
                  all_goals first
                  | exact he.elim
                  | (subst he; rfl)
                  | (rcases he with rfl | rfl <;> rfl)
                · simp [mrLoop, upToKResponses_zero, upToKResponses, speakersOf]
                  all_goals first
                  | exact List.nil_prefix
                  | exact List.prefix_rfl
                  | exact ⟨[AgentKey.assistant, AgentKey.peer], rfl⟩
            | succ n2 =>
                rw [mrLoop_fixed_round cfg jsonAgent router respond _ n2 _ 1
                  false 0 cfg.max_rounds .assistant hst2]
                cases hr2 : respond .assistant
                    (history ++ [⟨agentName .expert, c1⟩]) with
                | error u =>
                    try dsimp only
                    constructor
                    · intro e he
                      simp [upToKResponses_zero, upToKResponses] at he
                      all_goals first
                      | exact he.elim
                      | (subst he; rfl)
                      | (rcases he with rfl | rfl <;> rfl)
                    · simp [upToKResponses_zero, upToKResponses, speakersOf]
                      all_goals first
                      | exact List.nil_prefix
                      | exact List.prefix_rfl
                      | exact ⟨[AgentKey.assistant, AgentKey.peer], rfl⟩
                      | exact ⟨[AgentKey.peer], rfl⟩
                | ok c2 =>
                    try dsimp only
                    by_cases hs2 : stopHit cfg c2
                    · rw [if_pos hs2]
                      constructor
                      · intro e he
                        simp [upToKResponses_zero, upToKResponses] at he
                        all_goals first
                        | exact he.elim
                        | (subst he; rfl)
                        | (rcases he with rfl | rfl <;> rfl)
                      · simp [upToKResponses_zero, upToKResponses, speakersOf]
                        all_goals first
                        | exact List.nil_prefix
                        | exact List.prefix_rfl
                        | exact ⟨[AgentKey.peer], rfl⟩
                    · rw [if_neg hs2]
                      have h2E : hasSpoken .expert ((history ++
                          [⟨agentName .expert, c1⟩]) ++
                          [⟨agentName .assistant, c2⟩]) = true := by
                        rw [hasSpoken_concat]; simp [h1E]
                      have h2A : hasSpoken .assistant ((history ++
                          [⟨agentName .expert, c1⟩]) ++
                          [⟨agentName .assistant, c2⟩]) = true := by
                        rw [hasSpoken_concat]; simp [d4]
                      have h2P : hasSpoken .peer ((history ++
                          [⟨agentName .expert, c1⟩]) ++
                          [⟨agentName .assistant, c2⟩]) = false := by
                        rw [hasSpoken_concat]; simp [h1P, d5]
                      have hst3 : (isInFixedOrderStage ((history ++
                          [⟨agentName .expert, c1⟩]) ++
                          [⟨agentName .assistant, c2⟩])).2 = some .peer := by
                        simp only [isInFixedOrderStage, h2E, h2A, h2P,
                          Bool.not_true, Bool.not_false, Bool.false_eq_true,
                          if_false, if_true]
                      cases n2 with
                      | zero =>
                          constructor
                          · intro e he
                            simp [mrLoop, upToKResponses_zero, upToKResponses] at he
                            all_goals first
                            | exact he.elim
                            | (subst he; rfl)
                            | (rcases he with rfl | rfl <;> rfl)
                          · simp [mrLoop, upToKResponses_zero, upToKResponses, speakersOf]
                            all_goals first
                            | exact List.nil_prefix
                            | exact List.prefix_rfl
                            | exact ⟨[AgentKey.peer], rfl⟩
                      | succ n3 =>
                          rw [mrLoop_fixed_round cfg jsonAgent router respond
                            _ n3 _ 2 false 0 cfg.max_rounds .peer hst3]
                          cases hr3 : respond .peer ((history ++
                              [⟨agentName .expert, c1⟩]) ++
                              [⟨agentName .assistant, c2⟩]) with
                          | error u =>
                              try dsimp only
                              constructor
                              · intro e he
                                simp [upToKResponses_zero, upToKResponses] at he
                                all_goals first
                                | exact he.elim
                                | (subst he; rfl)
                                | (rcases he with rfl | rfl <;> rfl)
                                | (rcases he with rfl | rfl | rfl <;> rfl)
                              · simp [upToKResponses_zero, upToKResponses, speakersOf]
                                all_goals first
                                | exact List.nil_prefix
                                | exact List.prefix_rfl
                                | exact ⟨[AgentKey.peer], rfl⟩
                                | exact ⟨[], by simp⟩
                          | ok c3 =>
                              try dsimp only
                              by_cases hs3 : stopHit cfg c3
                              · rw [if_pos hs3]
                                constructor
                                · intro e he
                                  simp [upToKResponses_zero, upToKResponses] at he
                                  all_goals first
                                  | exact he.elim
                                  | (subst he; rfl)
                                  | (rcases he with rfl | rfl <;> rfl)
                                  | (rcases he with rfl | rfl | rfl <;> rfl)
                                · simp [upToKResponses_zero, upToKResponses, speakersOf]
                                  all_goals first
                                  | exact List.nil_prefix
                                  | exact List.prefix_rfl
                                  | exact ⟨[], by simp⟩
                              · rw [if_neg hs3]
                                constructor
                                · intro e he
                                  simp [upToKResponses_zero, upToKResponses] at he
                                  all_goals first
                                  | exact he.elim
                                  | (subst he; rfl)
                                  | (rcases he with rfl | rfl <;> rfl)
                                  | (rcases he with rfl | rfl | rfl <;> rfl)
                                · simp [upToKResponses_zero, upToKResponses, speakersOf]
                                  all_goals first
                                  | exact List.nil_prefix
                                  | exact List.prefix_rfl
                                  | exact ⟨[], by simp⟩

/-- C1 witness: concrete instance of the bootstrap-order theorem on a
single-user-message history. -/
theorem claim_C1_bootstrap_order_witness :
    (∀ e ∈ upToKResponses 3
        (multiRoundCollaborate cxJson cxRouterPeer cxRespondOk cxHistU
          ⟨true, 5, true, []⟩),
      isRouteEv e = false) ∧
    speakersOf (upToKResponses 3
        (multiRoundCollaborate cxJson cxRouterPeer cxRespondOk cxHistU
          ⟨true, 5, true, []⟩)) <+:
      [AgentKey.expert, AgentKey.assistant, AgentKey.peer] :=
  claim_C1_bootstrap_order cxJson cxRouterPeer cxRespondOk cxHistU
    ⟨true, 5, true, []⟩ (by decide)

/-- C2: the list returned by `runMultiRound` never exceeds
`config.maxRounds` messages (for every `AutoConfig` satisfying its data
model `maxRounds ≥ 1`, which is what `.ok` results entail). -/
theorem claim_C2_length_bound (jsonAgent : JsonAgentFn) (reg : Registry)
    (history : List Msg) (cfg : AutoConfig) (l : List Msg)
    (h : runMultiRound jsonAgent reg history cfg = .ok l) :
    (l.length : Int) ≤ cfg.max_rounds := by
  unfold runMultiRound at h
  by_cases hv : validMaxRounds cfg
  · simp only [hv, Bool.not_true, Bool.false_eq_true, if_false] at h
    rcases reg with ⟨oe, oa, op, orr⟩
    cases orr with
    | none => simp at h
    | some router =>
        cases oe with
        | none => simp at h
        | some e =>
            cases oa with
            | none => simp at h
            | some a =>
                cases op with
                | none => simp at h
                | some p =>
                    simp only [Except.ok.injEq] at h
                    subst h
                    have hlen := mrLoop_responses_length cfg jsonAgent router
                      (respondOf e a p) (detectUserIntervention history)
                      cfg.max_rounds.toNat history 0 false 0 cfg.max_rounds
                    have hv' : (1 : Int) ≤ cfg.max_rounds := by
                      simpa [validMaxRounds] using hv
                    unfold multiRoundResponses multiRoundCollaborate
                    omega
  · simp only [Bool.not_eq_true', Bool.not_eq_false] at hv
    simp only [hv, Bool.not_false, if_true] at h
    exact absurd h (by simp)

/-- C2 witness: a concrete five-round call returns exactly five
messages. -/
theorem claim_C2_length_bound_witness :
    ((([⟨"专家智能体", "hello"⟩, ⟨"助教智能体", "hello"⟩, ⟨"同伴智能体", "hello"⟩,
        ⟨"同伴智能体", "hello"⟩, ⟨"同伴智能体", "hello"⟩] : List Msg).length : Int)) ≤
      (5 : Int) :=
  claim_C2_length_bound cxJson (cxReg cxRouterPeer cxRespondOk) cxHistU
    ⟨true, 5, true, []⟩ _ rfl

/-- C3: the multi-round resolution of a raw router text — the `STOP`
test of `_route_next_speaker` followed by `_parse_routing_decision` — is
total and equals, for every decode oracle and every text, the
specification's description: `STOP` on a case-insensitive `STOP`
substring with priority over structured content, otherwise the normalized
candidate key mapped through the fixed table with default Expert. -/
theorem claim_C3_parser_spec_equiv (jsonAgent : JsonAgentFn) (text : String) :
    resolveDecision jsonAgent text = specResolveDecision jsonAgent text := by
  unfold resolveDecision specResolveDecision parseRoutingDecision
  by_cases hs : containsStop text
  · simp [hs]
  · rw [if_neg hs, if_neg hs]
    dsimp only
    by_cases hbr : (startsWithLBrace (pyStrip text) &&
        endsWithRBrace (pyStrip text)) = true
    · rw [if_pos hbr, if_pos hbr]
      cases hj : jsonAgent (pyStrip text) with
      | error u => rfl
      | ok v =>
          cases v with
          | none => rfl
          | some jv => cases jv with
            | str s => rfl
            | other => rfl
    · rw [if_neg hbr, if_neg hbr]

/-- C4 counterexample: with the three participants already in the history
and a router that raises, the round is not terminated — the loop recovers
with the default Expert and still produces a message after the
raised-router event, refuting the claim as stated. -/
theorem claim_C4_counterexample : ¬ C4Statement := by
  intro h
  have := h cxJson cxRouterRaise cxRespondOk cxHist3 ⟨true, 1, true, []⟩ 1 2
    (.route true "expert" (some .expert))
    (.reply .expert ⟨"专家智能体", "hello"⟩)
    (by decide) (by decide) (by decide) (by decide)
  exact absurd this (by decide)

/-- C4 (amended): a *Responder* exception terminates the loop immediately
— the failure event is always the final trace event, so exactly the
previously produced messages are returned; a *Router* exception is instead
recovered inside `_route_next_speaker`, which logs and returns the default
`("expert", expert)` so the round proceeds with Expert; in both cases no
exception propagates to the caller. -/
theorem claim_C4_amended (jsonAgent : JsonAgentFn) (router : RouterFn)
    (respond : AgentKey → ResponderFn) (history : List Msg)
    (cfg : AutoConfig) :
    (∀ k, Ev.replyFail k ∈
        multiRoundCollaborate jsonAgent router respond history cfg →
      (multiRoundCollaborate jsonAgent router respond history cfg).getLast? =
        some (.replyFail k)) ∧
    (∀ (hist2 : List Msg) (u : Unit), router hist2 = .error u →
      routeNextSpeaker jsonAgent router hist2 =
        (true, "expert", some .expert)) := by
  constructor
  · intro k hmem
    exact mrLoop_replyFail_last cfg jsonAgent router respond
      (detectUserIntervention history) cfg.max_rounds.toNat history 0 false 0
      cfg.max_rounds k hmem
  · intro hist2 u hr
    simp [routeNextSpeaker, hr]

/-- C4 amended witness: a failing Peer responder ends the concrete trace
with the failure event, and a raising router resolves to the Expert
default. -/
theorem claim_C4_amended_witness :
    (multiRoundCollaborate cxJson cxRouterPeer cxRespondFail cxHist3
      ⟨true, 1, true, []⟩).getLast? = some (.replyFail .peer) ∧
    routeNextSpeaker cxJson cxRouterRaise cxHist3 =
      (true, "expert", some .expert) :=
  ⟨(claim_C4_amended cxJson cxRouterPeer cxRespondFail cxHist3
      ⟨true, 1, true, []⟩).1 .peer (by decide),
   (claim_C4_amended cxJson cxRouterRaise cxRespondOk cxHist3
      ⟨true, 1, true, []⟩).2 cxHist3 () rfl⟩

/-- C5 counterexample: starting from a history that ends with a user
message but lacks the bootstrap, the working history at the moment of
first dynamic entry ends with the Peer reply (not with a user message),
yet the budget is `1` rather than the remaining `maxRounds - roundsDone`,
refuting the claim that the budget is computed from the working history at
that moment. -/
theorem claim_C5_counterexample : ¬ C5Statement := by
  intro h
  have := h cxJson cxRouterPeer cxRespondOk cxHistU ⟨true, 5, false, []⟩
    cxH3 1 3 (by decide)
  rw [if_neg (by decide)] at this
  exact absurd this (by decide)

/-- C5 (amended): the dynamic budget recorded at first entry into the
dynamic stage is computed from the *input* history of the call: `1` when
the input history ends with a user message and `continue_on_user_input` is
off, else the remaining budget `maxRounds` minus the rounds already done;
and the number of dynamic-stage messages never exceeds that budget. -/
theorem claim_C5_amended (jsonAgent : JsonAgentFn) (router : RouterFn)
    (respond : AgentKey → ResponderFn) (history : List Msg) (cfg : AutoConfig)
    (histAt : List Msg) (budget : Int) (roundsDone : Nat)
    (hmem : Ev.dynEntry histAt budget roundsDone ∈
      multiRoundCollaborate jsonAgent router respond history cfg) :
    budget = (if detectUserIntervention history &&
        !cfg.continue_on_user_input then 1
      else cfg.max_rounds - (roundsDone : Int)) ∧
    dynRepliesOf (multiRoundCollaborate jsonAgent router respond history
      cfg) ≤ budget.toNat := by
  have hc := mrLoop_dynEntry_core cfg jsonAgent router respond
    (detectUserIntervention history) cfg.max_rounds.toNat history 0
    cfg.max_rounds histAt budget roundsDone hmem
  exact ⟨by rw [hc.1]; rfl, hc.2⟩

/-- C5 amended witness: the concrete call from a user-message-only history
with `continueOnUserInput = false` gets budget `1` at entry (after three
bootstrap rounds) and produces one dynamic message. -/
theorem claim_C5_amended_witness :
    ((1 : Int) = (if detectUserIntervention cxHistU &&
        !(AutoConfig.mk true 5 false []).continue_on_user_input then 1
      else (AutoConfig.mk true 5 false []).max_rounds - ((3 : Nat) : Int))) ∧
    dynRepliesOf (multiRoundCollaborate cxJson cxRouterPeer cxRespondOk
      cxHistU ⟨true, 5, false, []⟩) ≤ (1 : Int).toNat :=
  claim_C5_amended cxJson cxRouterPeer cxRespondOk cxHistU
    ⟨true, 5, false, []⟩ cxH3 1 3 (by decide)

/-- C6: `runMultiRound` fails only on a missing registry entry
(ConfigurationError) or an invalid config `maxRounds < 1`
(ValidationError, spec-modelled, surfaced before any round executes — the
error is returned with no round run); on a complete registry with a valid
config it always returns a list, whatever the Responder/Router runtime
behaviour. -/
theorem claim_C6_error_surface (jsonAgent : JsonAgentFn) (reg : Registry)
    (history : List Msg) (cfg : AutoConfig) :
    (∀ e, runMultiRound jsonAgent reg history cfg = .error e →
      (e = .validationError ∧ cfg.max_rounds < 1) ∨
      (e = .configurationError ∧ (reg.router = none ∨ reg.expert = none ∨
        reg.assistant = none ∨ reg.peer = none))) ∧
    (cfg.max_rounds < 1 →
      runMultiRound jsonAgent reg history cfg = .error .validationError) ∧
    (1 ≤ cfg.max_rounds → reg.router.isSome = true → reg.expert.isSome = true →
      reg.assistant.isSome = true → reg.peer.isSome = true →
      ∃ l, runMultiRound jsonAgent reg history cfg = .ok l) := by
  refine ⟨?_, ?_, ?_⟩
  · intro e he
    unfold runMultiRound at he
    by_cases hv : validMaxRounds cfg
    · simp only [hv, Bool.not_true, Bool.false_eq_true, if_false] at he
      rcases reg with ⟨oe, oa, op, orr⟩
      cases orr with
      | none => cases oe <;> cases oa <;> cases op <;> simp_all
      | some router =>
          cases oe with
          | none => cases oa <;> cases op <;> simp_all
          | some e' =>
              cases oa with
              | none => cases op <;> simp_all
              | some a => cases op <;> simp_all
    · simp only [Bool.not_eq_true', Bool.not_eq_false] at hv
      simp only [hv, Bool.not_false, if_true, Except.error.injEq] at he
      subst he
      left
      refine ⟨rfl, ?_⟩
      simpa [validMaxRounds] using hv
  · intro hlt
    unfold runMultiRound
    have : validMaxRounds cfg = false := by simp [validMaxRounds]; omega
    simp [this]
  · intro hge hr he ha hp
    unfold runMultiRound
    have : validMaxRounds cfg = true := by simp [validMaxRounds, hge]
    simp only [this, Bool.not_true, Bool.false_eq_true, if_false]
    rcases reg with ⟨oe, oa, op, orr⟩
    cases orr with
    | none => simp at hr
    | some router =>
        cases oe with
        | none => simp at he
        | some e =>
            cases oa with
            | none => simp at ha
            | some a =>
                cases op with
                | none => simp at hp
                | some p => exact ⟨_, rfl⟩

/-- C6 witness: a complete registry with a valid config returns a list. -/
theorem claim_C6_error_surface_witness :
    ∃ l, runMultiRound cxJson (cxReg cxRouterPeer cxRespondOk) []
      ⟨true, 1, true, []⟩ = .ok l :=
  (claim_C6_error_surface cxJson (cxReg cxRouterPeer cxRespondOk) []
    ⟨true, 1, true, []⟩).2.2 (by decide) rfl rfl rfl rfl

/-- C7 counterexample: a configured stop keyword that is empty (it trims
to the empty string) is contained — in Python's substring sense — in every
produced content, yet the code skips empty keywords
(`any(k and k in ...)`) and produces a second round, refuting the claim as
stated. -/
theorem claim_C7_counterexample : ¬ C7Statement := by
  intro h
  have := h cxJson (cxReg cxRouterPeer cxRespondOk) []
    ⟨true, 2, true, [""]⟩
    [⟨"专家智能体", "hello"⟩, ⟨"助教智能体", "hello"⟩] 0
    ⟨"专家智能体", "hello"⟩ rfl (by decide) (by decide)
  exact absurd this (by decide)

/-- C7 (amended): if a produced message's content (trimmed, lowercased)
contains a configured stop keyword that is non-empty after trimming
(lowercased), no message is produced in any later round — the matching
message is the last element of the returned list, in bootstrap and dynamic
stages alike. -/
theorem claim_C7_amended (jsonAgent : JsonAgentFn) (reg : Registry)
    (history : List Msg) (cfg : AutoConfig) (l : List Msg) (i : Nat) (m : Msg)
    (hret : runMultiRound jsonAgent reg history cfg = .ok l)
    (hget : l.get? i = some m) (hstop : stopHit cfg m.content = true) :
    i + 1 = l.length := by
  unfold runMultiRound at hret
  by_cases hv : validMaxRounds cfg
  · simp only [hv, Bool.not_true, Bool.false_eq_true, if_false] at hret
    rcases reg with ⟨oe, oa, op, orr⟩
    cases orr with
    | none => simp at hret
    | some router =>
        cases oe with
        | none => simp at hret
        | some e =>
            cases oa with
            | none => simp at hret
            | some a =>
                cases op with
                | none => simp at hret
                | some p =>
                    simp only [Except.ok.injEq] at hret
                    subst hret
                    exact mrLoop_stop_last cfg jsonAgent router
                      (respondOf e a p) (detectUserIntervention history)
                      cfg.max_rounds.toNat history 0 false 0 cfg.max_rounds i
                      m hget hstop
  · simp only [Bool.not_eq_true', Bool.not_eq_false] at hv
    simp only [hv, Bool.not_false, if_true] at hret
    exact absurd hret (by simp)

/-- C7 amended witness: with stop keyword `hello` the first produced
message stops the call, and it is the last element. -/
theorem claim_C7_amended_witness :
    (0 : Nat) + 1 = ([⟨"专家智能体", "hello"⟩] : List Msg).length :=
  claim_C7_amended cxJson (cxReg cxRouterPeer cxRespondOk) []
    ⟨true, 2, true, ["hello"]⟩ [⟨"专家智能体", "hello"⟩] 0
    ⟨"专家智能体", "hello"⟩ rfl (by decide) (by decide)

/-- C8: neither `_multi_round_collaborate` nor `_single_round_collaborate`
mutates the caller-supplied history list: the multi-round loop appends
only to the freshly allocated working copy, so the caller's cell is
element-for-element unchanged, and the single-round path performs no list
mutation at all. -/
theorem claim_C8_no_mutation (jsonAgent : JsonAgentFn) (router : RouterFn)
    (respond : AgentKey → ResponderFn) (σ : Store) (histRef : Nat)
    (cfg : AutoConfig) (hvalid : histRef < σ.next) :
    ((multiRoundCollaborateSt jsonAgent router respond σ histRef
        cfg).1.mem histRef = σ.mem histRef) ∧
    ((singleRoundCollaborateSt jsonAgent router respond σ histRef).1 = σ) := by
  constructor
  · have hw : histRef ≠ σ.next := Nat.ne_of_lt hvalid
    unfold multiRoundCollaborateSt
    dsimp only [storeAlloc]
    rw [mrLoopSt_frame cfg jsonAgent router respond _ _ _ _ _ _ _ _ _ hw]
    simp [hw]
  · rfl

/-- C8 witness: a one-cell store holding the caller's history is unchanged
at that cell by a concrete multi-round call. -/
theorem claim_C8_no_mutation_witness :
    ((multiRoundCollaborateSt cxJson cxRouterPeer cxRespondOk
        ⟨fun _ => cxHistU, 1⟩ 0 ⟨true, 2, true, []⟩).1.mem 0 =
      (Store.mk (fun _ => cxHistU) 1).mem 0) ∧
    ((singleRoundCollaborateSt cxJson cxRouterPeer cxRespondOk
        ⟨fun _ => cxHistU, 1⟩ 0).1 = Store.mk (fun _ => cxHistU) 1) :=
  claim_C8_no_mutation cxJson cxRouterPeer cxRespondOk
    ⟨fun _ => cxHistU, 1⟩ 0 ⟨true, 2, true, []⟩ (by decide)

theorem c9_filter_expert :
    ((keywordsFor AgentType.expert).filter
      (fun kw => hasSubstr kw (pyLower "为什么光合作用的原理是什么"))).length = 2 := by
  decide

theorem c9_filter_assistant :
    ((keywordsFor AgentType.assistant).filter
      (fun kw => hasSubstr kw (pyLower "为什么光合作用的原理是什么"))).length = 0 := by
  decide

theorem c9_filter_peer :
    ((keywordsFor AgentType.peer).filter
      (fun kw => hasSubstr kw (pyLower "为什么光合作用的原理是什么"))).length = 0 := by
  decide

/-- C9: `route_agent` on the pure theory/analysis question, with no
subject and no context, picks the Expert with confidence strictly above
`0.3` (the keyword signal `2/2` contributes `0.4` through the
`0.4/0.35/0.25` combination). -/
theorem claim_C9_route_expert :
    (routeAgent "为什么光合作用的原理是什么" none none).agent_type =
      AgentType.expert ∧
    (3 : ℚ)/10 < (routeAgent "为什么光合作用的原理是什么" none none).confidence := by
  have hE : analyzeKeywords "为什么光合作用的原理是什么" AgentType.expert = 1 := by
    unfold analyzeKeywords keywordHits
    dsimp only
    rw [c9_filter_expert, c9_filter_assistant, c9_filter_peer]
    norm_num
  have hA : analyzeKeywords "为什么光合作用的原理是什么" AgentType.assistant = 0 := by
    unfold analyzeKeywords keywordHits
    dsimp only
    rw [c9_filter_expert, c9_filter_assistant, c9_filter_peer]
    norm_num
  have hP : analyzeKeywords "为什么光合作用的原理是什么" AgentType.peer = 0 := by
    unfold analyzeKeywords keywordHits
    dsimp only
    rw [c9_filter_expert, c9_filter_assistant, c9_filter_peer]
    norm_num
  have hsE : finalScore (analyzeKeywords "为什么光合作用的原理是什么")
      (analyzeSubject none) (analyzeContext none) AgentType.expert = 2/5 := by
    unfold finalScore analyzeSubject analyzeContext
    dsimp only
    rw [hE]
    norm_num
  have hsA : finalScore (analyzeKeywords "为什么光合作用的原理是什么")
      (analyzeSubject none) (analyzeContext none) AgentType.assistant = 0 := by
    unfold finalScore analyzeSubject analyzeContext
    dsimp only
    rw [hA]
    norm_num
  have hsP : finalScore (analyzeKeywords "为什么光合作用的原理是什么")
      (analyzeSubject none) (analyzeContext none) AgentType.peer = 0 := by
    unfold finalScore analyzeSubject analyzeContext
    dsimp only
    rw [hP]
    norm_num
  have hbest : bestAgent (finalScore (analyzeKeywords "为什么光合作用的原理是什么")
      (analyzeSubject none) (analyzeContext none)) = AgentType.expert := by
    unfold bestAgent
    dsimp only
    rw [hsE, hsA, hsP]
    norm_num
    intro hlt
    rw [hsE] at hlt
    norm_num at hlt
  unfold routeAgent makeFinalDecision
  dsimp only
  rw [hbest, hsE]
  rw [if_neg (by norm_num)]
  constructor
  · rfl
  · simp only
    rw [min_eq_left (by norm_num)]
    norm_num

/-- C10: the single-round path has no `STOP` branch — the raw router text
goes directly to `_parse_routing_decision`, so the exact router output
`STOP` resolves to Expert (key `stop` is outside the table) and exactly
one message is still produced when the Expert responder succeeds. -/
theorem claim_C10_single_round_stop (jsonAgent : JsonAgentFn)
    (respond : AgentKey → ResponderFn) (history : List Msg) (c : String)
    (hresp : respond .expert history = .ok c) :
    singleRoundCollaborate jsonAgent (fun _ => .ok "STOP") respond history =
      .ok [⟨agentName .expert, c⟩] ∧
    (parseRoutingDecision jsonAgent "STOP").2 = .expert := by
  have hp : (parseRoutingDecision jsonAgent "STOP").2 = .expert := rfl
  refine ⟨?_, hp⟩
  unfold singleRoundCollaborate
  simp only [bind, Except.bind]
  rw [hp, hresp]
  rfl

/-- C10 witness: a concrete call with router output `STOP` yields exactly
the Expert's one reply. -/
theorem claim_C10_single_round_stop_witness :
    singleRoundCollaborate cxJson (fun _ => .ok "STOP") cxRespondOk [] =
      .ok [⟨agentName .expert, "hello"⟩] ∧
    (parseRoutingDecision cxJson "STOP").2 = .expert :=
  claim_C10_single_round_stop cxJson cxRespondOk [] "hello" rfl
